import Mathlib

/-!
# Verification of the VM-to-Hack-assembly translator

This file gives a shallow embedding of the translator sources
(`translation_unit.py` and `parser.py`) and proves properties of the
embedding corresponding to the specification's claims.

Conventions of the embedding:
* Python `str` is Lean `String`; Python `int` is Lean `Int` (counters that
  only ever grow from 0 are `Nat`).
* Python dictionaries are insertion-ordered association lists.
* Python attributes that only come into existence when `set_filename` runs
  (`filename`, `static_prefix`) are `Option String`; reading them while absent
  is an `AttributeError`.
* Python exceptions are the error side of `Except`.  The `ValueError`s raised
  in `translation_unit.py` are distinguished by their message; each raise site
  gets its own constructor, named after the specification's error taxonomy.
-/

set_option linter.unusedVariables false
set_option maxRecDepth 100000

namespace VMTr

/-! ## Decimal rendering (Python `str` on integers) -/

/-- The character for the decimal digit `d` (meaningful for `d < 10`). -/
def digitChar (d : Nat) : Char := Char.ofNat (48 + d)

/-- Worker for `natDigits` with explicit fuel (the fuel keeps the recursion
structural, so that terms reduce inside the kernel); `n` strictly shrinks by
division each step, so any `fuel > n` suffices. -/
def natDigitsAux (fuel : Nat) (n : Nat) : List Char :=
  match fuel with
  | 0 => []
  | fuel + 1 =>
    if n < 10 then [digitChar n]
    else natDigitsAux fuel (n / 10) ++ [digitChar (n % 10)]

/-- Decimal digit characters of a natural number, most significant first.
This is the character sequence Python's `str` produces on a non-negative int. -/
def natDigits (n : Nat) : List Char := natDigitsAux (n + 1) n

/-- Python `str` on a natural number. -/
def natToString (n : Nat) : String := ⟨natDigits n⟩

/-- Python `str` on an int (possibly negative). -/
def intToString (i : Int) : String :=
  if i < 0 then "-" ++ natToString (-i).toNat else natToString i.toNat

/-! ## Errors -/

/-- The `ValueError`s raised in `translation_unit.py`, one constructor per
raise site, named following the specification's `TranslatorError` taxonomy
(§7).  The constructor argument is the datum interpolated into the Python
message. -/
inductive TUErr
  | invalidSegment (segment : String)
  | cannotPopToConstant
  | tempOutOfRange (offset : Int)
  | pointerOutOfRange (value : Int)
  | scratchRegisterOutOfRange (temp : Int)
deriving DecidableEq, Repr

/-- A Python value appearing in the `command` field of a `ParserError`
(the source passes a string, a token list, or `False` there). -/
inductive PyData
  | str (s : String)
  | strList (l : List String)
  | bool (b : Bool)
deriving DecidableEq, Repr

/-- Exceptions of the translator pipeline. -/
inductive VMErr
  /-- `ParserError(err_message, command, line_no, filename)` from `parser.py`. -/
  | parserError (errMessage : String) (command : PyData) (lineNo : Nat) (filename : String)
  /-- A `ValueError` raised in `translation_unit.py`. -/
  | valueError (e : TUErr)
  /-- A `ValueError` raised by Python's `int()` on a malformed literal. -/
  | pyValueError (msg : String)
  /-- Python `AttributeError`: reading an attribute that was never assigned. -/
  | attributeError (name : String)
deriving DecidableEq, Repr

instance {ε α : Type} [DecidableEq ε] [DecidableEq α] : DecidableEq (Except ε α) :=
  fun a b =>
    match a, b with
    | .ok x, .ok y =>
      if h : x = y then .isTrue (h ▸ rfl)
      else .isFalse (fun hc => h (Except.ok.inj hc))
    | .error e, .error f =>
      if h : e = f then .isTrue (h ▸ rfl)
      else .isFalse (fun hc => h (Except.error.inj hc))
    | .ok _, .error _ => .isFalse (fun hc => Except.noConfusion hc)
    | .error _, .ok _ => .isFalse (fun hc => Except.noConfusion hc)

/-! ## Class constants of `TranslationUnit` -/

def MEMORY_SEGMENTS : List String :=
  ["local", "argument", "this", "that", "constant", "pointer", "static", "temp"]

/-- `__MEM_SEG_MAP`; only ever applied to the four keys of the Python dict. -/
def MEM_SEG_MAP (segment : String) : String :=
  if segment = "local" then "LCL"
  else if segment = "argument" then "ARG"
  else if segment = "this" then "THIS"
  else "THAT"

def ARITHMETIC_COMMANDS : List String :=
  ["add", "sub", "neg", "eq", "gt", "lt", "and", "or", "not"]

def VAR_BASE_ADDRESS : Int := 16
def CALL_FRAME_SIZE : Int := 5
def TEMP_BASE_ADDRESS : Int := 5
def TEMP_MAX_ADDRESS : Int := 12
def THIS_POINTER : Int := 0
def THAT_POINTER : Int := 1
def TRUE_VAL : Int := -1
def FALSE_VAL : Int := 0

/-! ## Python dicts as insertion-ordered association lists -/

def dictContains {α : Type} (d : List (String × α)) (k : String) : Bool :=
  d.any (fun p => p.1 = k)

def dictGet {α : Type} (d : List (String × α)) (k : String) : Option α :=
  (d.find? (fun p => p.1 = k)).map (·.2)

/-- `d[k] = v`: overwrite the entry if the key exists, otherwise append. -/
def dictSet {α : Type} (d : List (String × α)) (k : String) (v : α) :
    List (String × α) :=
  if dictContains d k then d.map (fun p => if p.1 = k then (k, v) else p)
  else d ++ [(k, v)]

/-! ## The `TranslationUnit` state -/

/-- State of `TranslationUnit` (`translation_unit.py`).  `staticPrefix` embeds
the Python attribute `static_prefix`; it and `filename` exist only once
`set_filename` has run. -/
structure TranslationUnit where
  static_labels : List (String × Int) := []
  function_call_count : List (String × Nat) := []
  current_function : String := ""
  eq_label_count : Nat := 0
  gt_label_count : Nat := 0
  lt_label_count : Nat := 0
  staticPrefix : Option String := none
  filename : Option String := none
deriving DecidableEq, Repr

namespace TranslationUnit

/-- `set_filename` (`translation_unit.py` lines 50-59). -/
def set_filename (tu : TranslationUnit) (filename : String) : TranslationUnit :=
  { tu with staticPrefix := some filename, filename := some filename,
            current_function := "" }

/-- `__init__` (lines 40-48).  Python's `if filename:` treats the empty
string as false, hence the extra test. -/
def init (filename : Option String := none) : TranslationUnit :=
  match filename with
  | some f => if f = "" then {} else TranslationUnit.set_filename {} f
  | none => {}

/-- Read `self.filename`, raising `AttributeError` if it was never set. -/
def getFilename (tu : TranslationUnit) : Except VMErr String :=
  match tu.filename with
  | some f => .ok f
  | none => .error (.attributeError "filename")

/-- Read `self.static_prefix`, raising `AttributeError` if it was never set. -/
def getStaticPfx (tu : TranslationUnit) : Except VMErr String :=
  match tu.staticPrefix with
  | some f => .ok f
  | none => .error (.attributeError "static_prefix")

/-! ### Static helpers -/

/-- `__push_d_reg_to_stack` (lines 134-140). -/
def push_d_reg_to_stack : String := "@SP\nA=M\nM=D\n@SP\nM=M+1\n"

/-- `__pop_stack_to_d_reg` (lines 223-229). -/
def pop_stack_to_d_reg : String := "@SP\nAM=M-1\nD=M\n"

/-- `__push_constant` (lines 129-132). -/
def push_constant (value : Int) : String := "@" ++ intToString value ++ "\nD=A\n"

/-- `__push_normal_segment` (lines 103-110). -/
def push_normal_segment (segment : String) (offset : Int) : String :=
  "@" ++ MEM_SEG_MAP segment ++ "\nD=M\n@" ++ intToString offset ++ "\nA=D+A\nD=M\n"

/-- `__check_pointer_value` (lines 594-598). -/
def check_pointer_value (value : Int) : Except VMErr Unit :=
  if value ≠ THIS_POINTER ∧ value ≠ THAT_POINTER then
    .error (.valueError (.pointerOutOfRange value))
  else .ok ()

/-- `__check_temp_address` (lines 585-592). -/
def check_temp_address (offset : Int) : Except VMErr Unit :=
  if offset < 0 ∨ TEMP_BASE_ADDRESS + offset > TEMP_MAX_ADDRESS then
    .error (.valueError (.tempOutOfRange offset))
  else .ok ()

/-- `__push_pointer` (lines 112-121). -/
def push_pointer (pointer : Int) : Except VMErr String := do
  check_pointer_value pointer
  if pointer = THIS_POINTER then
    .ok ("@" ++ MEM_SEG_MAP "this" ++ "\nD=M\n")
  else
    .ok ("@" ++ MEM_SEG_MAP "that" ++ "\nD=M\n")

/-- `__push_temp` (lines 123-127). -/
def push_temp (offset : Int) : Except VMErr String := do
  check_temp_address offset
  .ok ("@" ++ intToString (TEMP_BASE_ADDRESS + offset) ++ "\nD=M\n")

/-- `__get_static_label` (lines 570-576): builds `"{static_prefix}.{offset}"`
and records its first use in `static_labels`. -/
def get_static_label (tu : TranslationUnit) (offset : Int) :
    Except VMErr (String × TranslationUnit) := do
  let sp ← tu.getStaticPfx
  let label := sp ++ "." ++ intToString offset
  if ¬ dictContains tu.static_labels label then
    let count : Int := tu.static_labels.length
    .ok (label, { tu with
      static_labels := dictSet tu.static_labels label (VAR_BASE_ADDRESS + count) })
  else
    .ok (label, tu)

/-- `__push_static` (lines 98-101). -/
def push_static (tu : TranslationUnit) (offset : Int) :
    Except VMErr (String × TranslationUnit) := do
  let (label, tu') ← tu.get_static_label offset
  .ok ("@" ++ label ++ "\nD=M\n", tu')

/-! ### `push_command` and `pop_command` -/

/-- `push_command` (lines 77-96). -/
def push_command (tu : TranslationUnit) (segment : String) (offset : Int) :
    Except VMErr (String × TranslationUnit) :=
  if MEMORY_SEGMENTS.contains segment then
    if segment = "constant" then
      .ok (push_constant offset ++ push_d_reg_to_stack, tu)
    else if segment = "static" then do
      let (code, tu') ← tu.push_static offset
      .ok (code ++ push_d_reg_to_stack, tu')
    else if segment = "temp" then do
      let code ← push_temp offset
      .ok (code ++ push_d_reg_to_stack, tu)
    else if segment = "pointer" then do
      let code ← push_pointer offset
      .ok (code ++ push_d_reg_to_stack, tu)
    else
      .ok (push_normal_segment segment offset ++ push_d_reg_to_stack, tu)
  else
    .error (.valueError (.invalidSegment segment))

/-- `pop_command` (lines 144-221). -/
def pop_command (tu : TranslationUnit) (segment : String) (offset : Int) :
    Except VMErr (String × TranslationUnit) :=
  if MEMORY_SEGMENTS.contains segment then
    if segment = "constant" then
      .error (.valueError .cannotPopToConstant)
    else if segment = "temp" then do
      check_temp_address offset
      .ok (pop_stack_to_d_reg ++
        "@" ++ intToString (TEMP_BASE_ADDRESS + offset) ++ "\nM=D\n", tu)
    else if segment = "static" then do
      let (label, tu') ← tu.get_static_label offset
      .ok (pop_stack_to_d_reg ++ "@" ++ label ++ "\nM=D\n", tu')
    else if segment = "pointer" then do
      check_pointer_value offset
      let label := if offset = THIS_POINTER then MEM_SEG_MAP "this" else MEM_SEG_MAP "that"
      .ok (pop_stack_to_d_reg ++ "@" ++ label ++ "\nM=D\n", tu)
    else
      if offset > 1 then
        .ok ("@" ++ MEM_SEG_MAP segment ++ "\nD=M\n@" ++ intToString offset ++
          "\nD=D+A\n@R13\nM=D\n" ++ pop_stack_to_d_reg ++ "@R13\nA=M\nM=D\n", tu)
      else if offset = 1 then
        .ok (pop_stack_to_d_reg ++ "@" ++ MEM_SEG_MAP segment ++ "\nA=M+1\nM=D\n", tu)
      else
        .ok (pop_stack_to_d_reg ++ "@" ++ MEM_SEG_MAP segment ++ "\nA=M\nM=D\n", tu)
  else
    .error (.valueError (.invalidSegment segment))

/-! ### Arithmetic and logical commands -/

/-- `__comparison_command` (lines 306-330). -/
def comparison_command (label condition : String) : String :=
  pop_stack_to_d_reg ++
  "A=A-1\nD=M-D\n@" ++ label ++ "\nD;" ++ condition ++
  "\nD=" ++ intToString FALSE_VAL ++ "\n@" ++ label ++ "_END\n0;JMP\n(" ++ label ++
  ")\nD=" ++ intToString TRUE_VAL ++ "\n(" ++ label ++ "_END)\n@SP\nA=M-1\nM=D\n"

/-- `__add_or_sub_command` (lines 299-304). -/
def add_or_sub_command (command : String) : String :=
  let cmd := if command = "add" then "M=M+D\n" else "M=M-D\n"
  pop_stack_to_d_reg ++ "A=A-1\n" ++ cmd

/-- `__logical_command` (lines 332-339). -/
def logical_command (logical_op : String) : String :=
  pop_stack_to_d_reg ++ "A=A-1\nM=D" ++ logical_op ++ "M\n"

/-- `__neg_command` (lines 267-271). -/
def neg_command : String := "@SP\nA=M-1\nM=-M\n"

/-- `__not_command` (lines 281-285). -/
def not_command : String := "@SP\nA=M-1\nM=!M\n"

/-- `arithmetic_command` (lines 233-257).  Returns `none` (Python `None`)
when the command is not one of the nine arithmetic commands; `eq`/`gt`/`lt`
mutate their counter before building the label (lines 287-297). -/
def arithmetic_command (tu : TranslationUnit) (command : String) :
    Option (String × TranslationUnit) :=
  if ARITHMETIC_COMMANDS.contains command then
    if command = "add" then some (add_or_sub_command "add", tu)
    else if command = "sub" then some (add_or_sub_command "sub", tu)
    else if command = "neg" then some (neg_command, tu)
    else if command = "eq" then
      let n := tu.eq_label_count + 1
      some (comparison_command ("EQ" ++ natToString n) "JEQ",
        { tu with eq_label_count := n })
    else if command = "gt" then
      let n := tu.gt_label_count + 1
      some (comparison_command ("GT" ++ natToString n) "JGT",
        { tu with gt_label_count := n })
    else if command = "lt" then
      let n := tu.lt_label_count + 1
      some (comparison_command ("LT" ++ natToString n) "JLT",
        { tu with lt_label_count := n })
    else if command = "and" then some (logical_command "&", tu)
    else if command = "or" then some (logical_command "|", tu)
    else some (not_command, tu)
  else none

/-! ### Branching commands -/

/-- `__get_label` (lines 455-460): `{current_function}${label}`. -/
def get_label (tu : TranslationUnit) (label : String) : String :=
  tu.current_function ++ "$" ++ label

/-- `label_command` (lines 343-345). -/
def label_command (tu : TranslationUnit) (label : String) : String :=
  "(" ++ tu.get_label label ++ ")\n"

/-- `unconditional_goto_command` (lines 347-352). -/
def unconditional_goto_command (tu : TranslationUnit) (label : String) : String :=
  "@" ++ tu.get_label label ++ "\n0;JMP\n"

/-- `conditional_goto_command` (lines 354-361). -/
def conditional_goto_command (tu : TranslationUnit) (label : String) : String :=
  pop_stack_to_d_reg ++ "@" ++ tu.get_label label ++ "\nD;JNE\n"

/-! ### Function call, declaration, return -/

/-- `__get_function_call_count` (lines 559-567). -/
def get_function_call_count (tu : TranslationUnit) (function_name : String) :
    Nat × TranslationUnit :=
  if ¬ dictContains tu.function_call_count function_name then
    (1, { tu with
      function_call_count := dictSet tu.function_call_count function_name 1 })
  else
    let newCount := (dictGet tu.function_call_count function_name).getD 0 + 1
    (newCount, { tu with
      function_call_count := dictSet tu.function_call_count function_name newCount })

/-- `__get_return_label` (lines 553-557): `{function_name}$ret.{call_count}`. -/
def get_return_label (tu : TranslationUnit) (function_name : String) :
    String × TranslationUnit :=
  let (call_count, tu') := tu.get_function_call_count function_name
  (function_name ++ "$ret." ++ natToString call_count, tu')

/-- `__push_return_address_to_stack` (lines 524-528). -/
def push_return_address_to_stack (label : String) : String :=
  "@" ++ label ++ "\nD=A\n" ++ push_d_reg_to_stack

/-- `__push_segment_pointer_to_stack` (lines 530-534). -/
def push_segment_pointer_to_stack (segment_label : String) : String :=
  "@" ++ segment_label ++ "\nD=M\n" ++ push_d_reg_to_stack

/-- `__set_arg_pointer` (lines 536-547). -/
def set_arg_pointer (arg_count : Int) : String :=
  "@SP\nD=M\n@" ++ intToString CALL_FRAME_SIZE ++ "\nD=D-A\n@" ++
  intToString arg_count ++ "\nD=D-A\n@ARG\nM=D\n"

/-- `__set_local_pointer` (lines 549-551). -/
def set_local_pointer : String := "@SP\nD=M\n@LCL\nM=D\n"

/-- `call_function` (lines 365-406). -/
def call_function (tu : TranslationUnit) (function_name : String)
    (arg_count : Int) : String × TranslationUnit :=
  let (return_label, tu') := tu.get_return_label function_name
  let code := push_return_address_to_stack return_label
  let code := code ++ push_segment_pointer_to_stack "LCL"
    ++ push_segment_pointer_to_stack "ARG"
    ++ push_segment_pointer_to_stack "THIS"
    ++ push_segment_pointer_to_stack "THAT"
  let code := code ++ set_arg_pointer arg_count
  let code := code ++ set_local_pointer
  let code := code ++ "@" ++ function_name ++ "\n0;JMP\n"
  let code := code ++ "(" ++ return_label ++ ")\n"
  (code, tu')

/-- The while loop of `function_declaration` (lines 421-429): append the
5-instruction push-0 block once per remaining local. -/
def pushLocalsLoop : Nat → String
  | 0 => ""
  | k + 1 => "@SP\nA=M\nM=0\n@SP\nM=M+1\n" ++ pushLocalsLoop k

/-- `function_declaration` (lines 409-430): the while loop appends the
push-0 block `local_count` times (not at all when `local_count ≤ 0`). -/
def function_declaration (tu : TranslationUnit) (function_name : String)
    (local_count : Int) : String × TranslationUnit :=
  let code := "(" ++ function_name ++ ")\n" ++
    pushLocalsLoop local_count.toNat
  (code, { tu with current_function := function_name })

/-- `__store_d_reg_in_vm_temp` (lines 578-583). -/
def store_d_reg_in_vm_temp (temp : Int) : Except VMErr String :=
  if temp ≥ 13 ∧ temp ≤ 15 then
    .ok ("@R" ++ intToString temp ++ "\nM=D\n")
  else
    .error (.valueError (.scratchRegisterOutOfRange temp))

/-- `__store_end_frame_and_return_addr` (lines 462-477). -/
def store_end_frame_and_return_addr (end_frame return_address : Int) :
    Except VMErr String := do
  let code := "@LCL\nD=M\n"
  let s₁ ← store_d_reg_in_vm_temp end_frame
  let code := code ++ s₁ ++
    "@" ++ intToString CALL_FRAME_SIZE ++ "\nA=D-A\nD=M\n"
  let s₂ ← store_d_reg_in_vm_temp return_address
  .ok (code ++ s₂)

/-- `__save_result_to_stack` (lines 479-489). -/
def save_result_to_stack : String :=
  pop_stack_to_d_reg ++ "@ARG\nA=M\nM=D\n"

/-- `__reset_stack_pointer_to_caller` (lines 491-502). -/
def reset_stack_pointer_to_caller : String :=
  "@ARG\nD=M\n@SP\nM=D+1\n"

/-- `__restore_caller_segments` (lines 504-521): for
`(index, segment)` in `enumerate(('LCL','ARG','THIS','THAT'), 1)` emit a
restore of `segment` from `RAM[*end_frame_pointer − (5 − index)]`. -/
def restore_caller_segments (end_frame_pointer : Int) : String :=
  String.join ((List.enumFrom 1 ["LCL", "ARG", "THIS", "THAT"]).map
    (fun p =>
      "@R" ++ intToString end_frame_pointer ++ "\nD=M\n@" ++
      intToString (CALL_FRAME_SIZE - (p.1 : Int)) ++ "\nD=D-A\nA=D\nD=M\n@" ++
      p.2 ++ "\nM=D\n"))

/-- `return_from_function` (lines 432-453). -/
def return_from_function : Except VMErr String := do
  let end_frame : Int := 13
  let return_address : Int := 14
  let code ← store_end_frame_and_return_addr end_frame return_address
  let code := code ++ save_result_to_stack
  let code := code ++ reset_stack_pointer_to_caller
  let code := code ++ restore_caller_segments end_frame
  .ok (code ++ "@R" ++ intToString return_address ++ "\nA=M\n0;JMP\n")

end TranslationUnit

/-! ## The parser (`parser.py`) -/

/-- `__COMMAND_TYPES` (parser.py lines 26-29). -/
def C_ARITHMETIC : Nat := 1
def C_PUSH : Nat := 2
def C_POP : Nat := 3
def C_LABEL : Nat := 4
def C_GOTO : Nat := 5
def C_IF : Nat := 6
def C_FUNCTION : Nat := 7
def C_RETURN : Nat := 8
def C_CALL : Nat := 9

/-- `__POP_STACKS` (lines 32-33): the segments that can be popped to;
`constant` is deliberately absent. -/
def POP_STACKS : List String :=
  ["static", "local", "this", "that", "argument", "pointer", "temp"]

/-- `__PUSH_STACKS` (lines 36-37): `POP_STACKS` plus `constant`. -/
def PUSH_STACKS : List String := POP_STACKS ++ ["constant"]

/-- `__ARG2_LIST` (lines 44-49). -/
def ARG2_LIST : List Nat := [C_PUSH, C_POP, C_FUNCTION, C_CALL]

/-- Python `str.strip()`: remove leading and trailing whitespace. -/
def pyStrip (s : String) : String :=
  ⟨((s.data.dropWhile Char.isWhitespace).reverse.dropWhile Char.isWhitespace).reverse⟩

/-- The characters before the first occurrence of `//`; this is
Python's `s.split('//', 1)[0]`. -/
def beforeComment : List Char → List Char
  | '/' :: '/' :: _ => []
  | c :: rest => c :: beforeComment rest
  | [] => []

/-- Worker for `pyTokens`; `acc` is the current token, reversed. -/
def pyTokensAux : List Char → List Char → List (List Char)
  | [], acc => if acc = [] then [] else [acc.reverse]
  | c :: rest, acc =>
    if c.isWhitespace then
      if acc = [] then pyTokensAux rest [] else acc.reverse :: pyTokensAux rest []
    else pyTokensAux rest (c :: acc)

/-- Python `str.split()` with no argument: split on runs of whitespace,
dropping empty pieces. -/
def pyTokens (s : String) : List String :=
  (pyTokensAux s.data []).map (fun l => ⟨l⟩)

/-- Python `' '.join(l)`. -/
def joinTokens : List String → String
  | [] => ""
  | [t] => t
  | t :: rest => t ++ " " ++ joinTokens rest

/-- Python `str.isdigit` (restricted to ASCII input). -/
def pyIsDigit (s : String) : Bool :=
  s.length > 0 && s.data.all Char.isDigit

/-- Value of a list of decimal digit characters. -/
def digitsToNat (l : List Char) : Nat :=
  l.foldl (fun a c => a * 10 + (c.toNat - 48)) 0

/-- Python `int()` on a string: optional surrounding whitespace, optional
sign, decimal digits; anything else raises `ValueError`. -/
def pyInt (s : String) : Except VMErr Int :=
  let t := pyStrip s
  match t.data with
  | '-' :: ds =>
    if ds ≠ [] ∧ ds.all Char.isDigit then .ok (-(digitsToNat ds : Int))
    else .error (.pyValueError ("invalid literal for int() with base 10: " ++ s))
  | '+' :: ds =>
    if ds ≠ [] ∧ ds.all Char.isDigit then .ok ((digitsToNat ds : Int))
    else .error (.pyValueError ("invalid literal for int() with base 10: " ++ s))
  | ds =>
    if ds ≠ [] ∧ ds.all Char.isDigit then .ok ((digitsToNat ds : Int))
    else .error (.pyValueError ("invalid literal for int() with base 10: " ++ s))

/-- The file-data dictionary handed to `set_new_file`. -/
structure FileData where
  filename : String
  commands : List String
deriving DecidableEq, Repr

/-- State of `HackParser` (parser.py).  In Python `line_no` and
`source_commands` only exist after `set_new_file`; they are given inert
defaults here because `run` never reads them while `file_set` is false. -/
structure HackParser where
  translator : TranslationUnit
  file_set : Bool := false
  line_no : Nat := 0
  source_commands : List String := []
deriving DecidableEq, Repr

namespace HackParser

/-- `__get_unrecognised_command_msg` (lines 223-225). -/
def get_unrecognised_command_msg (command : String) : String :=
  "Unrecognised command \x27" ++ command ++ "\x27\n"

/-- `__get_unrecognised_mem_seg_msg` (lines 227-229). -/
def get_unrecognised_mem_seg_msg (segment : String) : String :=
  "Unrecognised memory segment \x27" ++ segment ++ "\x27\n"

/-- `__get_illegal_offset_message` (lines 231-233). -/
def get_illegal_offset_message (offset : String) : String :=
  "Illegal offset \x27" ++ offset ++ "\x27\n"

/-- `__init__` (lines 51-55). -/
def init (translator : TranslationUnit) : HackParser :=
  { translator := translator, file_set := false }

/-- `set_new_file` (lines 57-65): strips comments and whitespace from each
source line, hands the filename to the translator, and arms `file_set`. -/
def set_new_file (p : HackParser) (new_file : FileData) : HackParser :=
  { p with
    line_no := 0,
    source_commands :=
      new_file.commands.map (fun command => pyStrip ⟨beforeComment command.data⟩),
    translator := p.translator.set_filename new_file.filename,
    file_set := true }

/-- `__is_comment_or_empty_line` (lines 211-221). -/
def is_comment_or_empty_line (command : String) : Bool :=
  beforeComment (pyStrip command).data = []

/-- `__check_push_command` (lines 150-162). -/
def check_push_command (command : List String) (line_no : Nat)
    (filename : String) : Except VMErr Nat :=
  if ¬ PUSH_STACKS.contains (command.getD 1 "") then
    .error (.parserError (get_unrecognised_mem_seg_msg (command.getD 1 ""))
      (.str (joinTokens command)) line_no filename)
  else if ¬ pyIsDigit (command.getD 2 "") then
    .error (.parserError (get_illegal_offset_message (command.getD 2 ""))
      (.str (joinTokens command)) line_no filename)
  else .ok C_PUSH

/-- `__check_pop_command` (lines 164-176). -/
def check_pop_command (command : List String) (line_no : Nat)
    (filename : String) : Except VMErr Nat :=
  if ¬ POP_STACKS.contains (command.getD 1 "") then
    .error (.parserError (get_unrecognised_mem_seg_msg (command.getD 1 ""))
      (.str (joinTokens command)) line_no filename)
  else if ¬ pyIsDigit (command.getD 2 "") then
    .error (.parserError (get_illegal_offset_message (command.getD 2 ""))
      (.str (joinTokens command)) line_no filename)
  else .ok C_POP

/-- The `raise ParserError` fallthrough of `__get_command_type`
(lines 145-148); building the error reads `self.translator.filename`. -/
def unrecognised_command_error (cmd : List String) (line_no : Nat)
    (tu : TranslationUnit) : Except VMErr Nat := do
  let fn ← tu.getFilename
  .error (.parserError (get_unrecognised_command_msg (joinTokens cmd))
    (.strList cmd) line_no fn)

/-- `__get_command_type` (lines 119-148). -/
def get_command_type (command : String) (line_no : Nat)
    (tu : TranslationUnit) : Except VMErr Nat :=
  let cmd := pyTokens command
  if cmd.length = 3 then
    if cmd.getD 0 "" = "push" then do
      let fn ← tu.getFilename
      check_push_command cmd line_no fn
    else if cmd.getD 0 "" = "pop" then do
      let fn ← tu.getFilename
      check_pop_command cmd line_no fn
    else if cmd.getD 0 "" = "call" then .ok C_CALL
    else if cmd.getD 0 "" = "function" then .ok C_FUNCTION
    else unrecognised_command_error cmd line_no tu
  else if cmd.length = 2 then
    if cmd.getD 0 "" = "label" then .ok C_LABEL
    else if cmd.getD 0 "" = "goto" then .ok C_GOTO
    else if cmd.getD 0 "" = "if-goto" then .ok C_IF
    else unrecognised_command_error cmd line_no tu
  else if cmd.length = 1 then
    if cmd.getD 0 "" = "return" then .ok C_RETURN
    else if ARITHMETIC_COMMANDS.contains (cmd.getD 0 "") then .ok C_ARITHMETIC
    else unrecognised_command_error cmd line_no tu
  else unrecognised_command_error cmd line_no tu

/-- `__get_arg_1` (lines 178-196).  The Python indexing `command_split[1]`
is modelled with a default; it is only reached for command shapes that
guarantee the token exists. -/
def get_arg_1 (command : String) (command_type : Nat) (line_no : Nat)
    (filename : String) : Except VMErr String :=
  if command_type = C_RETURN then
    .error (.parserError "Cannot get arg 1 of return command type"
      (.str command) line_no filename)
  else
    let command_split := pyTokens command
    if command_type = C_ARITHMETIC then .ok (command_split.getD 0 "")
    else .ok (command_split.getD 1 "")

/-- `__get_arg_2` (lines 198-209). -/
def get_arg_2 (command : String) (command_type : Nat) (line_no : Nat)
    (filename : String) : Except VMErr Int :=
  let cmd := pyTokens command
  if ARG2_LIST.contains command_type then pyInt (cmd.getD 2 "")
  else
    .error (.parserError ("Cannot get argument 2 of command: " ++ joinTokens cmd)
      (.str (joinTokens cmd)) line_no filename)

/-- One iteration of the `run` loop (lines 77-115): classify the (non-empty,
non-comment) command, dispatch to the translator, and return the assembly
produced together with the updated translator.  The `"None"` fallback
mirrors Python formatting `None` into the f-string when
`arithmetic_command` returns `None` (unreachable through classification). -/
def processCommand (command : String) (ln : Nat) (tu : TranslationUnit) :
    Except VMErr (String × TranslationUnit) := do
  let command_type ← get_command_type command ln tu
  if command_type = C_PUSH then do
    let fn₁ ← tu.getFilename
    let segment ← get_arg_1 command command_type ln fn₁
    let fn₂ ← tu.getFilename
    let offset ← get_arg_2 command command_type ln fn₂
    tu.push_command segment offset
  else if command_type = C_POP then do
    let fn₁ ← tu.getFilename
    let segment ← get_arg_1 command command_type ln fn₁
    let fn₂ ← tu.getFilename
    let offset ← get_arg_2 command command_type ln fn₂
    tu.pop_command segment offset
  else if command_type = C_ARITHMETIC then
    match tu.arithmetic_command command with
    | some r => .ok r
    | none => .ok ("None", tu)
  else if command_type = C_LABEL then do
    let fn ← tu.getFilename
    let label ← get_arg_1 command command_type ln fn
    .ok (tu.label_command label, tu)
  else if command_type = C_GOTO then do
    let fn ← tu.getFilename
    let label ← get_arg_1 command command_type ln fn
    .ok (tu.unconditional_goto_command label, tu)
  else if command_type = C_IF then do
    let fn ← tu.getFilename
    let label ← get_arg_1 command command_type ln fn
    .ok (tu.conditional_goto_command label, tu)
  else if command_type = C_CALL then do
    let fn₁ ← tu.getFilename
    let function_name ← get_arg_1 command command_type ln fn₁
    let fn₂ ← tu.getFilename
    let arg_count ← get_arg_2 command command_type ln fn₂
    .ok (tu.call_function function_name arg_count)
  else if command_type = C_FUNCTION then do
    let fn₁ ← tu.getFilename
    let function_name ← get_arg_1 command command_type ln fn₁
    let fn₂ ← tu.getFilename
    let local_count ← get_arg_2 command command_type ln fn₂
    .ok (tu.function_declaration function_name local_count)
  else if command_type = C_RETURN then do
    let asm ← TranslationUnit.return_from_function
    .ok (asm, tu)
  else
    .ok ("", tu)

/-- The loop of `run` (lines 72-115): each processed command contributes
`"// --- <command> ---\n" ++ <asm>` to the output (every branch of the
source loop appends with exactly this echo prefix); comment and blank
lines are skipped yet advance `line_no`.  The final `("", tu)` case of
`processCommand` is unreachable: classification only returns the nine
command types, all of which are dispatched. -/
def runAux (cmds : List String) (line_no : Nat) (tu : TranslationUnit) :
    Except VMErr (List String × Nat × TranslationUnit) :=
  match cmds with
  | [] => .ok ([], line_no, tu)
  | command :: rest =>
    let ln := line_no + 1
    if is_comment_or_empty_line command then runAux rest ln tu
    else do
      let (asm, tu₁) ← processCommand command ln tu
      let (asms, ln', tu₂) ← runAux rest ln tu₁
      .ok (("// --- " ++ command ++ " ---\n" ++ asm) :: asms, ln', tu₂)

/-- `run` (lines 67-117).  On the unset path the error construction reads
`self.translator.filename` before raising; a completed run clears
`file_set`. -/
def run (p : HackParser) : Except VMErr (List String × HackParser) :=
  if p.file_set = false then do
    let fn ← p.translator.getFilename
    .error (.parserError "No source commands provided" (.bool false) 0 fn)
  else do
    let (asm_list, ln, tu) ← runAux p.source_commands p.line_no p.translator
    .ok (asm_list, { p with line_no := ln, translator := tu, file_set := false })

end HackParser

/-! ## Runs of translator operations

A run of the translator is the sequence of mutating calls the driver and
parser make on the single `TranslationUnit`: `set_filename` on each new
input file and one dispatch per parsed command (see `processCommand`).
`TUOp` names these entry points and `runOps` executes a whole run,
collecting each call's emitted assembly. -/

inductive TUOp
  | setFilename (filename : String)
  | push (segment : String) (offset : Int)
  | pop (segment : String) (offset : Int)
  | arith (command : String)
  | label (name : String)
  | goto (name : String)
  | ifGoto (name : String)
  | call (function_name : String) (arg_count : Int)
  | func (function_name : String) (local_count : Int)
  | ret
deriving DecidableEq, Repr

/-- Dispatch one operation to the corresponding `TranslationUnit` method.
`setFilename` emits no assembly; the `"None"` case mirrors
`processCommand`. -/
def TUOp.apply (op : TUOp) (tu : TranslationUnit) :
    Except VMErr (String × TranslationUnit) :=
  match op with
  | .setFilename f => .ok ("", tu.set_filename f)
  | .push seg off => tu.push_command seg off
  | .pop seg off => tu.pop_command seg off
  | .arith c =>
    match tu.arithmetic_command c with
    | some r => .ok r
    | none => .ok ("None", tu)
  | .label l => .ok (tu.label_command l, tu)
  | .goto l => .ok (tu.unconditional_goto_command l, tu)
  | .ifGoto l => .ok (tu.conditional_goto_command l, tu)
  | .call f n => .ok (tu.call_function f n)
  | .func f n => .ok (tu.function_declaration f n)
  | .ret => do
    let s ← TranslationUnit.return_from_function
    .ok (s, tu)

/-- Execute a run: apply each operation in order, threading the translator
state, and collect the emitted assembly strings (one per operation). -/
def runOps : List TUOp → TranslationUnit → Except VMErr (List String × TranslationUnit)
  | [], tu => .ok ([], tu)
  | op :: ops, tu => do
    let (asm, tu₁) ← op.apply tu
    let (asms, tu₂) ← runOps ops tu₁
    .ok (asm :: asms, tu₂)

/-- 1 when the operation is a call to `f`, else 0. -/
def TUOp.callInc : TUOp → String → Nat
  | .call g _, f => if f = g then 1 else 0
  | _, _ => 0

/-- The number of `call F _` operations in a list, for a given `F`. -/
def countCalls (f : String) (ops : List TUOp) : Nat :=
  (ops.map (fun op => op.callInc f)).sum

/-- The number of occurrences of a given arithmetic command in a list. -/
def countArith (c : String) (ops : List TUOp) : Nat :=
  ops.countP (fun op => op = .arith c)

/-- The current call count the translator holds for `f` (0 when absent). -/
def ccLookup (tu : TranslationUnit) (f : String) : Nat :=
  (dictGet tu.function_call_count f).getD 0

/-- The assembly `call_function` emits for callee `f` with `arg_count` `n`
when the return label gets sequence number `k` (so the return label is
`f$ret.k`). -/
def call_code (f : String) (n : Int) (k : Nat) : String :=
  TranslationUnit.push_return_address_to_stack (f ++ "$ret." ++ natToString k) ++
  TranslationUnit.push_segment_pointer_to_stack "LCL" ++
  TranslationUnit.push_segment_pointer_to_stack "ARG" ++
  TranslationUnit.push_segment_pointer_to_stack "THIS" ++
  TranslationUnit.push_segment_pointer_to_stack "THAT" ++
  TranslationUnit.set_arg_pointer n ++
  TranslationUnit.set_local_pointer ++
  "@" ++ f ++ "\n0;JMP\n" ++
  "(" ++ f ++ "$ret." ++ natToString k ++ ")\n"

/-- A function name fed to `call` contains no newline (true of every name
the parser can produce, since tokens contain no whitespace). -/
def TUOp.goodCall : TUOp → Bool
  | .call f _ => !(f.data.contains '\n')
  | _ => true

/-! ## Extracting label definitions from assembly text

A symbolic label is defined in Hack assembly by a line of the form
`(LABEL)`.  `labelDefs` scans a piece of assembly text and returns the
labels so defined, via a line-by-line automaton: at the start of a line,
`(` opens a candidate; a line that starts with any other character defines
no label; a candidate line emits its body when it ends `...)` at the line
break. -/

inductive LdState
  | start
  | dead
  | cand (acc : List Char)
deriving DecidableEq, Repr

/-- Close a candidate accumulator: if the last character of the line (the
head of the reversed accumulator) was `)`, the characters between the
parentheses form a label. -/
def closeCand (acc : List Char) : List (List Char) :=
  match acc with
  | ')' :: t => [t.reverse]
  | _ => []

/-- Label-definition scanner; `acc` holds the candidate line's characters
after `(`, reversed.  At a line break (or end of text) a candidate whose
last character is `)` yields the label between the parentheses. -/
def ldAux : LdState → List Char → List (List Char)
  | .cand acc, [] => closeCand acc
  | _, [] => []
  | .start, c :: r =>
    if c = '\n' then ldAux .start r
    else if c = '(' then ldAux (.cand []) r
    else ldAux .dead r
  | .dead, c :: r =>
    if c = '\n' then ldAux .start r else ldAux .dead r
  | .cand acc, c :: r =>
    if c = '\n' then closeCand acc ++ ldAux .start r
    else ldAux (.cand (c :: acc)) r

/-- The labels defined by `(LABEL)` lines of an assembly string. -/
def labelDefs (s : String) : List (List Char) := ldAux .start s.data

/-- Reference reading of one line: a label definition is a line that starts
with `(` and ends with `)`. -/
def labelDefOfLine (l : List Char) : Option (List Char) :=
  if l.head? = some '(' ∧ l.getLast? = some ')' ∧ 2 ≤ l.length then
    some ((l.drop 1).dropLast)
  else none

/-- Join lines with a terminating newline after each. -/
def joinNL (lines : List (List Char)) : List Char :=
  lines.flatMap (fun l => l ++ ['\n'])

/-! ## The generated labels of a run

The comparison commands and `call` generate fresh labels from the
translator's counters; `GenLabel` is the abstract form of such a label and
`runGenLabels` lists the ones a run generates, in order. -/

inductive CmpKind
  | eq
  | gt
  | lt
deriving DecidableEq, Repr

/-- The label stem of a comparison kind. -/
def CmpKind.str : CmpKind → String
  | .eq => "EQ"
  | .gt => "GT"
  | .lt => "LT"

/-- The translator's counter for a comparison kind. -/
def CmpKind.count (k : CmpKind) (tu : TranslationUnit) : Nat :=
  match k with
  | .eq => tu.eq_label_count
  | .gt => tu.gt_label_count
  | .lt => tu.lt_label_count

inductive GenLabel
  | cmp (kind : CmpKind) (n : Nat) (isEnd : Bool)
  | ret (f : String) (k : Nat)
deriving DecidableEq, Repr

/-- The character string of a generated label: `EQn`/`GTn`/`LTn`, their
`_END` forms, and `f$ret.k`. -/
def GenLabel.render : GenLabel → List Char
  | .cmp kind n e => kind.str.data ++ natDigits n ++ (if e then "_END".data else [])
  | .ret f k => f.data ++ "$ret.".data ++ natDigits k

/-- The labels one operation generates when applied in state `tu`. -/
def opGenLabels (op : TUOp) (tu : TranslationUnit) : List GenLabel :=
  match op with
  | .arith c =>
    if c = "eq" then
      [.cmp .eq (tu.eq_label_count + 1) false, .cmp .eq (tu.eq_label_count + 1) true]
    else if c = "gt" then
      [.cmp .gt (tu.gt_label_count + 1) false, .cmp .gt (tu.gt_label_count + 1) true]
    else if c = "lt" then
      [.cmp .lt (tu.lt_label_count + 1) false, .cmp .lt (tu.lt_label_count + 1) true]
    else []
  | .call f _ => [.ret f (ccLookup tu f + 1)]
  | _ => []

/-- All labels a run generates, in order of generation. -/
def runGenLabels : List TUOp → TranslationUnit → List GenLabel
  | [], _ => []
  | op :: ops, tu =>
    opGenLabels op tu ++
      (match op.apply tu with
        | .ok (_, tu₁) => runGenLabels ops tu₁
        | .error _ => [])

/-- The label definitions found in the assembly emitted by one operation,
restricted to the label-generating operations (comparisons and calls);
labels written by `label` commands and function declarations come from the
source program, not the generator. -/
def opEmittedLabels (op : TUOp) (asm : String) : List (List Char) :=
  match op with
  | .arith c => if c = "eq" ∨ c = "gt" ∨ c = "lt" then labelDefs asm else []
  | .call _ _ => labelDefs asm
  | _ => []

/-- All label definitions the label-generating operations of a run emit,
read off the run's actual assembly output. -/
def runEmittedLabels (ops : List TUOp) (asms : List String) : List (List Char) :=
  (ops.zip asms).flatMap (fun p => opEmittedLabels p.1 p.2)

/-- A source line whose tokens are `pop constant ⟨anything⟩`. -/
def isPopConstant (command : String) : Bool :=
  match pyTokens command with
  | [t0, t1, _] => t0 = "pop" && t1 = "constant"
  | _ => false

/-- Two translator states agree on all the label-generating fields
(the per-callee call counts and the three comparison counters). -/
def sameCounters (tu tu' : TranslationUnit) : Prop :=
  tu'.function_call_count = tu.function_call_count ∧
  tu'.eq_label_count = tu.eq_label_count ∧
  tu'.gt_label_count = tu.gt_label_count ∧
  tu'.lt_label_count = tu.lt_label_count

/-- The source command token of a comparison kind. -/
def CmpKind.cmd : CmpKind → String
  | .eq => "eq"
  | .gt => "gt"
  | .lt => "lt"

/-- The jump mnemonic of a comparison kind. -/
def CmpKind.jump : CmpKind → String
  | .eq => "JEQ"
  | .gt => "JGT"
  | .lt => "JLT"

/-- A generated label strictly above the state's counters: exactly the
labels the state can still generate. -/
def freshAfter (tu : TranslationUnit) : GenLabel → Prop
  | .cmp k n _ => k.count tu < n
  | .ret f k => ccLookup tu f < k

/-- A generated label already covered by the state's counters: once a label
is generated, the resulting state covers it. -/
def usedBy (tu : TranslationUnit) : GenLabel → Prop
  | .cmp k n _ => n ≤ k.count tu
  | .ret f k => k ≤ ccLookup tu f

/-- All label definitions found across a list of assembly fragments. -/
def allLabelDefs (asms : List String) : List (List Char) :=
  asms.flatMap labelDefs

/-! # Lemmas about decimal rendering -/

/-- The fuel in `natDigitsAux` is irrelevant once it exceeds the argument. -/
theorem natDigitsAux_fuel : ∀ (f₁ f₂ n : Nat), n < f₁ → n < f₂ →
    natDigitsAux f₁ n = natDigitsAux f₂ n := by
  intro f₁
  induction f₁ using Nat.strong_induction_on with
  | _ f₁ ih =>
    intro f₂ n h₁ h₂
    cases f₁ with
    | zero => omega
    | succ fa =>
      cases f₂ with
      | zero => omega
      | succ fb =>
        simp only [natDigitsAux]
        by_cases hn : n < 10
        · simp [hn]
        · simp only [hn, if_false]
          have hd : n / 10 < n := Nat.div_lt_self (by omega) (by omega)
          rw [ih fa (by omega) fb (n / 10) (by omega) (by omega)]

/-- The recursion equation of `natDigits`. -/
theorem natDigits_eq (n : Nat) : natDigits n =
    if n < 10 then [digitChar n] else natDigits (n / 10) ++ [digitChar (n % 10)] := by
  by_cases hn : n < 10
  · simp [natDigits, natDigitsAux, hn]
  · simp only [natDigits, natDigitsAux, hn, if_false]
    have hd : n / 10 < n := Nat.div_lt_self (by omega) (by omega)
    rw [natDigitsAux_fuel n (n / 10 + 1) (n / 10) (by omega) (by omega)]
    simp only [natDigitsAux]

theorem natDigits_ne_nil (n : Nat) : natDigits n ≠ [] := by
  rw [natDigits_eq]; split <;> simp

theorem digitChar_isDigit : ∀ d < 10, (digitChar d).isDigit = true := by decide

theorem digitChar_inj : ∀ a < 10, ∀ b < 10, digitChar a = digitChar b → a = b := by
  decide

/-- Every character of a rendered natural number is a decimal digit. -/
theorem natDigits_digits (n : Nat) : ∀ c ∈ natDigits n, c.isDigit = true := by
  induction n using Nat.strong_induction_on with
  | _ n ih =>
    intro c hc
    rw [natDigits_eq] at hc
    by_cases hn : n < 10
    · rw [if_pos hn, List.mem_singleton] at hc
      subst hc; exact digitChar_isDigit n hn
    · rw [if_neg hn] at hc
      rcases List.mem_append.mp hc with h | h
      · exact ih (n / 10) (Nat.div_lt_self (by omega) (by omega)) c h
      · rw [List.mem_singleton] at h
        subst h; exact digitChar_isDigit _ (Nat.mod_lt _ (by omega))

/-- A non-digit character does not occur in a list of digit characters. -/
theorem mem_digits_ne {l : List Char} (hl : ∀ c ∈ l, c.isDigit = true) {c : Char}
    (hc : c.isDigit = false) : c ∉ l := fun hm => by rw [hl c hm] at hc; cases hc

theorem natDigits_no_newline (n : Nat) : '\n' ∉ natDigits n :=
  mem_digits_ne (natDigits_digits n) (by decide)

/-- Decimal rendering of naturals is injective. -/
theorem natDigits_inj : ∀ (m n : Nat), natDigits m = natDigits n → m = n := by
  intro m
  induction m using Nat.strong_induction_on with
  | _ m ih =>
    intro n h
    rw [natDigits_eq m, natDigits_eq n] at h
    by_cases hm : m < 10 <;> by_cases hn : n < 10
    · rw [if_pos hm, if_pos hn] at h
      simp only [List.cons.injEq, and_true] at h
      exact digitChar_inj m hm n hn h
    · rw [if_pos hm, if_neg hn] at h
      have hlen := congrArg List.length h
      simp only [List.length_append, List.length_cons, List.length_nil] at hlen
      exact absurd (List.length_eq_zero.mp (by omega)) (natDigits_ne_nil (n / 10))
    · rw [if_neg hm, if_pos hn] at h
      have hlen := congrArg List.length h
      simp only [List.length_append, List.length_cons, List.length_nil] at hlen
      exact absurd (List.length_eq_zero.mp (by omega)) (natDigits_ne_nil (m / 10))
    · rw [if_neg hm, if_neg hn] at h
      obtain ⟨h₁, h₂⟩ := List.append_inj' h (by simp)
      have e₁ := ih (m / 10) (Nat.div_lt_self (by omega) (by omega)) (n / 10) h₁
      simp only [List.cons.injEq, and_true] at h₂
      have e₂ := digitChar_inj (m % 10) (Nat.mod_lt _ (by omega)) (n % 10)
        (Nat.mod_lt _ (by omega)) h₂
      omega

theorem natToString_data (n : Nat) : (natToString n).data = natDigits n := rfl

theorem intToString_data_nonneg {i : Int} (h : 0 ≤ i) :
    (intToString i).data = natDigits i.toNat := by
  unfold intToString
  rw [if_neg (by omega)]
  rfl

theorem intToString_data_neg {i : Int} (h : i < 0) :
    (intToString i).data = '-' :: natDigits (-i).toNat := by
  unfold intToString
  rw [if_pos h]
  rfl

theorem intToString_no_dot (i : Int) : '.' ∉ (intToString i).data := by
  by_cases h : i < 0
  · rw [intToString_data_neg h]
    intro hm
    rcases List.mem_cons.mp hm with hm | hm
    · cases hm
    · exact mem_digits_ne (natDigits_digits _) (by decide) hm
  · rw [intToString_data_nonneg (by omega)]
    exact mem_digits_ne (natDigits_digits _) (by decide)

theorem intToString_no_newline (i : Int) : '\n' ∉ (intToString i).data := by
  by_cases h : i < 0
  · rw [intToString_data_neg h]
    intro hm
    rcases List.mem_cons.mp hm with hm | hm
    · cases hm
    · exact mem_digits_ne (natDigits_digits _) (by decide) hm
  · rw [intToString_data_nonneg (by omega)]
    exact mem_digits_ne (natDigits_digits _) (by decide)

/-- Splitting a list at a separator that occurs in neither suffix is
unambiguous. -/
theorem append_sep_inj {sep : Char} : ∀ {l₁ l₂ m₁ m₂ : List Char}, sep ∉ m₁ → sep ∉ m₂ →
    l₁ ++ sep :: m₁ = l₂ ++ sep :: m₂ → l₁ = l₂ ∧ m₁ = m₂ := by
  intro l₁
  induction l₁ with
  | nil =>
    intro l₂ m₁ m₂ h₁ h₂ h
    cases l₂ with
    | nil => simpa using h
    | cons d t =>
      simp only [List.nil_append, List.cons_append, List.cons.injEq] at h
      obtain ⟨hd, ht⟩ := h
      exact absurd (ht ▸ List.mem_append.mpr (Or.inr (hd ▸ List.mem_cons_self _ _))) h₁
  | cons c t ih =>
    intro l₂ m₁ m₂ h₁ h₂ h
    cases l₂ with
    | nil =>
      simp only [List.nil_append, List.cons_append, List.cons.injEq] at h
      obtain ⟨hd, ht⟩ := h
      exact absurd (ht.symm ▸ List.mem_append.mpr (Or.inr (hd ▸ List.mem_cons_self _ _))) h₂
    | cons d u =>
      simp only [List.cons_append, List.cons.injEq] at h
      obtain ⟨hd, ht⟩ := h
      obtain ⟨e₁, e₂⟩ := ih h₁ h₂ ht
      exact ⟨by rw [hd, e₁], e₂⟩

theorem data_append (a b : String) : (a ++ b).data = a.data ++ b.data := rfl

@[simp] theorem ok_bind {α β : Type} (a : α) (k : α → Except VMErr β) :
    (Except.ok a >>= k) = k a := rfl

@[simp] theorem error_bind {α β : Type} (e : VMErr) (k : α → Except VMErr β) :
    ((Except.error e : Except VMErr α) >>= k) = Except.error e := rfl

/-! # Claims C1, C2, C5 -/

/-- C1 (corrected): when a new input file begins, `set_filename` leaves
`static_labels`, `call_counts` (`function_call_count`) and the three
comparison counters untouched and installs the new file prefix — but it
also resets `current_function` to the empty string
(translation_unit.py line 59), so `current_function` does not persist
across files, contrary to the claim. -/
theorem C1_amended (tu : TranslationUnit) (f : String) :
    (tu.set_filename f).static_labels = tu.static_labels ∧
    (tu.set_filename f).function_call_count = tu.function_call_count ∧
    (tu.set_filename f).eq_label_count = tu.eq_label_count ∧
    (tu.set_filename f).gt_label_count = tu.gt_label_count ∧
    (tu.set_filename f).lt_label_count = tu.lt_label_count ∧
    (tu.set_filename f).staticPrefix = some f ∧
    (tu.set_filename f).filename = some f ∧
    (tu.set_filename f).current_function = "" :=
  ⟨rfl, rfl, rfl, rfl, rfl, rfl, rfl, rfl⟩

/-- C1 counterexample: after translating `function Foo.bar 0` the state has
`current_function = "Foo.bar"`; entering a new file via `set_filename`
changes it (to `""`), refuting that every field other than the file prefix
is unchanged. -/
theorem C1_counterexample :
    (((TranslationUnit.init (some "FileA")).function_declaration "Foo.bar" 0).2.set_filename
        "FileB").current_function ≠
      ((TranslationUnit.init (some "FileA")).function_declaration "Foo.bar" 0).2.current_function := by
  decide

/-- C2 (corrected): the return sequence stores LCL into R13 and the return
address `RAM[R13−5]` into R14, writes the popped value to `*ARG`, sets
`SP = ARG+1`, then restores the caller's segments — but in the order
`LCL = RAM[endFrame−4]`, `ARG = RAM[endFrame−3]`, `THIS = RAM[endFrame−2]`,
`THAT = RAM[endFrame−1]` (the loop of `__restore_caller_segments` walks
LCL, ARG, THIS, THAT with offsets 4, 3, 2, 1), not THAT-first as claimed —
and finally jumps via R14. -/
theorem C2_amended :
    TranslationUnit.return_from_function = .ok (
      "@LCL\nD=M\n@R13\nM=D\n@5\nA=D-A\nD=M\n@R14\nM=D\n" ++
      "@SP\nAM=M-1\nD=M\n@ARG\nA=M\nM=D\n" ++
      "@ARG\nD=M\n@SP\nM=D+1\n" ++
      ("@R13\nD=M\n@4\nD=D-A\nA=D\nD=M\n@LCL\nM=D\n" ++
       "@R13\nD=M\n@3\nD=D-A\nA=D\nD=M\n@ARG\nM=D\n" ++
       "@R13\nD=M\n@2\nD=D-A\nA=D\nD=M\n@THIS\nM=D\n" ++
       "@R13\nD=M\n@1\nD=D-A\nA=D\nD=M\n@THAT\nM=D\n") ++
      "@R14\nA=M\n0;JMP\n") := by
  decide

/-- C2 counterexample: the return assembly is not the sequence the claim
describes, in which THAT (offset 1) is restored first, then THIS, ARG and
LCL. -/
theorem C2_counterexample :
    TranslationUnit.return_from_function ≠ .ok (
      "@LCL\nD=M\n@R13\nM=D\n@5\nA=D-A\nD=M\n@R14\nM=D\n" ++
      "@SP\nAM=M-1\nD=M\n@ARG\nA=M\nM=D\n" ++
      "@ARG\nD=M\n@SP\nM=D+1\n" ++
      ("@R13\nD=M\n@1\nD=D-A\nA=D\nD=M\n@THAT\nM=D\n" ++
       "@R13\nD=M\n@2\nD=D-A\nA=D\nD=M\n@THIS\nM=D\n" ++
       "@R13\nD=M\n@3\nD=D-A\nA=D\nD=M\n@ARG\nM=D\n" ++
       "@R13\nD=M\n@4\nD=D-A\nA=D\nD=M\n@LCL\nM=D\n") ++
      "@R14\nA=M\n0;JMP\n") := by
  decide

/-- C5 (corrected): `and` and `or` do follow the add/sub pattern — the
pop-to-D prologue then `A=A-1` then a single ALU line — but the ALU line
is written `M=D&M` (resp. `M=D|M`), operands in the opposite order from
the claimed `M=M&D`/`M=M|D` (`__logical_command` emits
`f'M=D{logical_op}M'`). -/
theorem C5_amended (tu : TranslationUnit) :
    tu.arithmetic_command "and" =
      some (TranslationUnit.pop_stack_to_d_reg ++ "A=A-1\n" ++ "M=D&M\n", tu) ∧
    tu.arithmetic_command "or" =
      some (TranslationUnit.pop_stack_to_d_reg ++ "A=A-1\n" ++ "M=D|M\n", tu) ∧
    tu.arithmetic_command "add" =
      some (TranslationUnit.pop_stack_to_d_reg ++ "A=A-1\n" ++ "M=M+D\n", tu) ∧
    tu.arithmetic_command "sub" =
      some (TranslationUnit.pop_stack_to_d_reg ++ "A=A-1\n" ++ "M=M-D\n", tu) :=
  ⟨rfl, rfl, rfl, rfl⟩

/-- C5 counterexample: the block emitted for `and` is not
pop-to-D; `A=A-1`; `M=M&D`. -/
theorem C5_counterexample :
    (TranslationUnit.init (some "Demo")).arithmetic_command "and" ≠
      some (TranslationUnit.pop_stack_to_d_reg ++ "A=A-1\n" ++ "M=M&D\n",
        TranslationUnit.init (some "Demo")) := by
  decide

/-! # Claim C9: temp segment bounds -/

/-- C9 (confirmed): pushing or popping `temp i` succeeds for every
`0 ≤ i ≤ 7`, addressing fixed RAM address `5 + i`, and fails with
`TempOutOfRange` for every `i ≥ 8` (`__check_temp_address` rejects
`5 + i > 12`). -/
theorem C9_temp_bounds (tu : TranslationUnit) (i : Int) :
    (0 ≤ i → i ≤ 7 →
      tu.push_command "temp" i =
        .ok ("@" ++ intToString (5 + i) ++ "\nD=M\n" ++
          TranslationUnit.push_d_reg_to_stack, tu) ∧
      tu.pop_command "temp" i =
        .ok (TranslationUnit.pop_stack_to_d_reg ++ "@" ++ intToString (5 + i) ++
          "\nM=D\n", tu)) ∧
    (8 ≤ i →
      tu.push_command "temp" i = .error (.valueError (.tempOutOfRange i)) ∧
      tu.pop_command "temp" i = .error (.valueError (.tempOutOfRange i))) := by
  constructor
  · intro h0 h7
    have hc : TranslationUnit.check_temp_address i = .ok () := by
      simp only [TranslationUnit.check_temp_address, TEMP_BASE_ADDRESS, TEMP_MAX_ADDRESS]
      rw [if_neg (by omega)]
    constructor
    · simp [TranslationUnit.push_command, TranslationUnit.push_temp, hc,
        MEMORY_SEGMENTS, TEMP_BASE_ADDRESS, Except.bind]
    · simp [TranslationUnit.pop_command, hc, MEMORY_SEGMENTS, TEMP_BASE_ADDRESS,
        Except.bind]
  · intro h8
    have hc : TranslationUnit.check_temp_address i =
        .error (.valueError (.tempOutOfRange i)) := by
      simp only [TranslationUnit.check_temp_address, TEMP_BASE_ADDRESS, TEMP_MAX_ADDRESS]
      rw [if_pos (by omega)]
    constructor
    · simp [TranslationUnit.push_command, TranslationUnit.push_temp, hc,
        MEMORY_SEGMENTS, Except.bind]
    · simp [TranslationUnit.pop_command, hc, MEMORY_SEGMENTS, Except.bind]

/-- C9 witness: `push temp 7` succeeds (addressing RAM 12) and
`push temp 8` fails with `TempOutOfRange 8`. -/
theorem C9_witness :
    (TranslationUnit.init (some "Demo")).push_command "temp" 7 =
      .ok ("@" ++ intToString (5 + 7) ++ "\nD=M\n" ++
        TranslationUnit.push_d_reg_to_stack, TranslationUnit.init (some "Demo")) ∧
    (TranslationUnit.init (some "Demo")).push_command "temp" 8 =
      .error (.valueError (.tempOutOfRange 8)) :=
  ⟨((C9_temp_bounds (TranslationUnit.init (some "Demo")) 7).1 (by decide) (by decide)).1,
   ((C9_temp_bounds (TranslationUnit.init (some "Demo")) 8).2 (by decide)).1⟩

/-! # Claim C8: static labels -/

/-- C8 (confirmed): with the same `static_prefix` `p` in effect, both
`push static i` and `pop static i` emit a reference to the identical label
string `p ++ "." ++ str(i)`; and labels built from different prefixes are
always distinct strings (the offset part contains no `.`, so the split at
the last `.` is unambiguous). -/
theorem C8_static_labels (tu : TranslationUnit) (p : String) (i : Int)
    (h : tu.staticPrefix = some p) :
    (∃ tu₁, tu.push_command "static" i =
      .ok ("@" ++ (p ++ "." ++ intToString i) ++ "\nD=M\n" ++
        TranslationUnit.push_d_reg_to_stack, tu₁)) ∧
    (∃ tu₂, tu.pop_command "static" i =
      .ok (TranslationUnit.pop_stack_to_d_reg ++ "@" ++ (p ++ "." ++ intToString i) ++
        "\nM=D\n", tu₂)) ∧
    (∀ (q : String) (j : Int), p ≠ q →
      p ++ "." ++ intToString i ≠ q ++ "." ++ intToString j) := by
  have hlab : ∃ tu', tu.get_static_label i =
      .ok (p ++ "." ++ intToString i, tu') := by
    simp only [TranslationUnit.get_static_label, TranslationUnit.getStaticPfx, h,
      ok_bind]
    split
    · exact ⟨_, rfl⟩
    · exact ⟨_, rfl⟩
  obtain ⟨tu', hlab⟩ := hlab
  refine ⟨⟨tu', ?_⟩, ⟨tu', ?_⟩, ?_⟩
  · simp [TranslationUnit.push_command, TranslationUnit.push_static, hlab,
      MEMORY_SEGMENTS, Except.bind]
  · simp [TranslationUnit.pop_command, hlab, MEMORY_SEGMENTS, Except.bind]
  · intro q j hpq heq
    have hd := congrArg String.data heq
    simp only [data_append, List.append_assoc, List.singleton_append] at hd
    obtain ⟨hp, _⟩ := append_sep_inj (intToString_no_dot i) (intToString_no_dot j) hd
    exact hpq (String.ext hp)

/-- C8 witness: in a unit with prefix `Demo`, `push static 3` emits a
reference to `Demo.3`, and `Demo.3` differs from `Other.3`. -/
theorem C8_witness :
    (∃ tu₁, (TranslationUnit.init (some "Demo")).push_command "static" 3 =
      .ok ("@" ++ ("Demo" ++ "." ++ intToString 3) ++ "\nD=M\n" ++
        TranslationUnit.push_d_reg_to_stack, tu₁)) ∧
    ("Demo" ++ "." ++ intToString 3 : String) ≠ "Other" ++ "." ++ intToString 3 :=
  ⟨(C8_static_labels (TranslationUnit.init (some "Demo")) "Demo" 3 rfl).1,
   (C8_static_labels (TranslationUnit.init (some "Demo")) "Demo" 3 rfl).2.2 "Other" 3
     (by decide)⟩

/-! # Lemmas about `HackParser.run` -/

/-- `run` on an armed parser that asks for no file raises the
`"No source commands provided"` `ParserError` (carrying Python `False` as
the command and line number 0), provided the translator has a filename to
put in it. -/
theorem run_not_set {p : HackParser} {fn : String} (hset : p.file_set = false)
    (hfn : p.translator.filename = some fn) :
    p.run = .error (.parserError "No source commands provided" (.bool false) 0 fn) := by
  unfold HackParser.run
  rw [if_pos hset]
  simp [TranslationUnit.getFilename, hfn]

/-- A completed (successful) `run` leaves `file_set` cleared. -/
theorem run_ok_file_set {p : HackParser} {r : List String × HackParser}
    (h : p.run = .ok r) : r.2.file_set = false := by
  unfold HackParser.run at h
  split at h
  · cases hg : p.translator.getFilename with
    | error e => rw [hg] at h; simp at h
    | ok fn => rw [hg] at h; simp at h
  · cases hr : HackParser.runAux p.source_commands p.line_no p.translator with
    | error e => rw [hr] at h; simp at h
    | ok val =>
      rw [hr] at h
      obtain ⟨asms, ln, tu⟩ := val
      simp only [ok_bind] at h
      have := Except.ok.inj h
      rw [← this]

/-- Classifying a `pop constant` line never succeeds: `constant` is not in
`__POP_STACKS`, so `__check_pop_command` raises. -/
theorem check_pop_constant (cmd : List String) (h1 : cmd.getD 1 "" = "constant")
    (ln : Nat) (fn : String) :
    HackParser.check_pop_command cmd ln fn =
      .error (.parserError (HackParser.get_unrecognised_mem_seg_msg "constant")
        (.str (joinTokens cmd)) ln fn) := by
  unfold HackParser.check_pop_command
  rw [h1]
  rw [if_pos (by decide)]

theorem get_command_type_popConstant {c : String} {ln : Nat} {tu : TranslationUnit}
    (h : isPopConstant c = true) {ct : Nat} :
    HackParser.get_command_type c ln tu ≠ .ok ct := by
  intro hok
  unfold isPopConstant at h
  unfold HackParser.get_command_type at hok
  cases htk : pyTokens c with
  | nil => rw [htk] at h; simp at h
  | cons t0 r1 =>
    cases r1 with
    | nil => rw [htk] at h; simp at h
    | cons t1 r2 =>
      cases r2 with
      | nil => rw [htk] at h; simp at h
      | cons t2 r3 =>
        cases r3 with
        | cons t3 r4 => rw [htk] at h; simp at h
        | nil =>
          rw [htk] at h
          simp only [Bool.and_eq_true, decide_eq_true_eq] at h
          obtain ⟨h0, h1⟩ := h
          subst h0; subst h1
          rw [htk] at hok
          simp only [show (["pop", "constant", t2] : List String).length = 3 from rfl,
            show (["pop", "constant", t2] : List String).getD 0 "" = "pop" from rfl] at hok
          simp only [if_true] at hok
          rw [if_neg (by decide)] at hok
          cases hg : tu.getFilename with
          | error e => rw [hg] at hok; simp at hok
          | ok fn =>
            rw [hg] at hok
            simp only [ok_bind] at hok
            rw [check_pop_constant _ (by rfl)] at hok
            simp at hok

theorem processCommand_popConstant {c : String} {ln : Nat} {tu : TranslationUnit}
    (h : isPopConstant c = true) {r : String × TranslationUnit} :
    HackParser.processCommand c ln tu ≠ .ok r := by
  intro hok
  unfold HackParser.processCommand at hok
  cases hg : HackParser.get_command_type c ln tu with
  | error e => rw [hg] at hok; simp at hok
  | ok ct => exact get_command_type_popConstant h hg

/-- A successful pass over the source commands implies none of the
processed (non-skipped) lines was a `pop constant`. -/
theorem runAux_ok_no_popConstant : ∀ {cmds : List String} {ln : Nat}
    {tu : TranslationUnit} {res},
    HackParser.runAux cmds ln tu = .ok res →
    ∀ c ∈ cmds, HackParser.is_comment_or_empty_line c = false →
      isPopConstant c = false := by
  intro cmds
  induction cmds with
  | nil => intro ln tu res h c hc; simp at hc
  | cons d rest ih =>
    intro ln tu res h c hc hskip
    unfold HackParser.runAux at h
    by_cases hd : HackParser.is_comment_or_empty_line d = true
    · rw [if_pos hd] at h
      rcases List.mem_cons.mp hc with rfl | hcm
      · rw [hd] at hskip; cases hskip
      · exact ih h c hcm hskip
    · rw [if_neg hd] at h
      cases hp : HackParser.processCommand d (ln + 1) tu with
      | error e => rw [hp] at h; simp at h
      | ok v =>
        rw [hp] at h
        obtain ⟨asm, tu₁⟩ := v
        simp only [ok_bind] at h
        cases hr : HackParser.runAux rest (ln + 1) tu₁ with
        | error e => rw [hr] at h; simp at h
        | ok res₂ =>
          rcases List.mem_cons.mp hc with rfl | hcm
          · by_contra hpc
            rw [Bool.not_eq_false] at hpc
            exact processCommand_popConstant hpc hp
          · exact ih hr c hcm hskip

/-- A successful `run` implies none of the parser's source lines was a
processed `pop constant`. -/
theorem run_ok_no_popConstant {p : HackParser} {r : List String × HackParser}
    (h : p.run = .ok r) :
    ∀ c ∈ p.source_commands, HackParser.is_comment_or_empty_line c = false →
      isPopConstant c = false := by
  unfold HackParser.run at h
  split at h
  · cases hg : p.translator.getFilename with
    | error e => rw [hg] at h; simp at h
    | ok fn => rw [hg] at h; simp at h
  · cases hr : HackParser.runAux p.source_commands p.line_no p.translator with
    | error e => rw [hr] at h; simp at h
    | ok val => exact runAux_ok_no_popConstant hr

/-! # Lemmas about the dict embedding -/

theorem dictGet_cons_self {α : Type} {a : String × α} {t : List (String × α)}
    {k : String} (h : a.1 = k) : dictGet (a :: t) k = some a.2 := by
  unfold dictGet
  rw [List.find?_cons_of_pos _ (by simp [h])]
  rfl

theorem dictGet_cons_other {α : Type} {a : String × α} {t : List (String × α)}
    {k : String} (h : ¬ a.1 = k) : dictGet (a :: t) k = dictGet t k := by
  unfold dictGet
  rw [List.find?_cons_of_neg _ (by simp [h])]

theorem dictGet_of_not_contains {α : Type} :
    ∀ {d : List (String × α)} {k : String}, dictContains d k = false →
      dictGet d k = none := by
  intro d
  induction d with
  | nil => intro k h; rfl
  | cons a t ih =>
    intro k h
    simp only [dictContains, List.any_cons, Bool.or_eq_false_iff] at h
    obtain ⟨h1, h2⟩ := h
    rw [dictGet_cons_other (by simpa using h1)]
    exact ih h2

/-- Replacing the entries keyed `k` does not affect lookups of `g ≠ k`. -/
theorem find_replace_other {α : Type} (k : String) (v : α) {g : String} (hg : g ≠ k) :
    ∀ (d : List (String × α)),
      dictGet (d.map (fun p => if p.1 = k then (k, v) else p)) g = dictGet d g := by
  intro d
  induction d with
  | nil => rfl
  | cons a t ih =>
    simp only [List.map_cons]
    by_cases ha : a.1 = k
    · rw [if_pos ha]
      rw [dictGet_cons_other (show ¬ ((k, v).1 = g) from fun hh => hg hh.symm)]
      rw [dictGet_cons_other (show ¬ (a.1 = g) from fun hh => hg (hh.symm.trans ha))]
      exact ih
    · rw [if_neg ha]
      by_cases hag : a.1 = g
      · rw [dictGet_cons_self hag, dictGet_cons_self hag]
      · rw [dictGet_cons_other hag, dictGet_cons_other hag]
        exact ih

/-- After replacing the entries keyed `k` (which is present), looking up `k`
finds the new value. -/
theorem find_replace_self {α : Type} (k : String) (v : α) :
    ∀ (d : List (String × α)), dictContains d k = true →
      dictGet (d.map (fun p => if p.1 = k then (k, v) else p)) k = some v := by
  intro d
  induction d with
  | nil => intro h; simp [dictContains] at h
  | cons a t ih =>
    intro h
    simp only [List.map_cons]
    by_cases ha : a.1 = k
    · rw [if_pos ha]
      exact dictGet_cons_self rfl
    · rw [if_neg ha]
      rw [dictGet_cons_other ha]
      apply ih
      simp only [dictContains, List.any_cons, Bool.or_eq_true] at h
      rcases h with h | h
      · exact absurd (by simpa using h) ha
      · exact h

theorem dictGet_set_self {α : Type} (d : List (String × α)) (k : String) (v : α) :
    dictGet (dictSet d k v) k = some v := by
  unfold dictSet
  by_cases hc : dictContains d k
  · rw [if_pos hc]
    exact find_replace_self k v d hc
  · rw [if_neg hc]
    unfold dictGet
    rw [List.find?_append]
    have hn : d.find? (fun p => p.1 = k) = none := by
      have hd := dictGet_of_not_contains (d := d) (k := k) (by simpa using hc)
      unfold dictGet at hd
      exact Option.map_eq_none'.mp hd
    rw [hn]
    simp

theorem dictGet_set_other {α : Type} (d : List (String × α)) (k : String) (v : α)
    {g : String} (hg : g ≠ k) : dictGet (dictSet d k v) g = dictGet d g := by
  unfold dictSet
  by_cases hc : dictContains d k
  · rw [if_pos hc]
    exact find_replace_other k v hg d
  · rw [if_neg hc]
    unfold dictGet
    rw [List.find?_append]
    rw [List.find?_singleton]
    rw [if_neg (by simpa using fun hh => hg hh.symm)]
    simp

/-! # State evolution of the translator over a run -/

/-- `__get_function_call_count` returns one more than the stored count. -/
theorem gfcc_count (tu : TranslationUnit) (f : String) :
    (tu.get_function_call_count f).1 = ccLookup tu f + 1 := by
  unfold TranslationUnit.get_function_call_count ccLookup
  by_cases hc : dictContains tu.function_call_count f
  · rw [if_neg (by simp [hc])]
  · rw [if_pos (by simpa using hc)]
    rw [dictGet_of_not_contains (by simpa using hc)]
    rfl

/-- `__get_function_call_count` bumps exactly the callee's stored count. -/
theorem gfcc_state (tu : TranslationUnit) (f g : String) :
    ccLookup (tu.get_function_call_count f).2 g =
      ccLookup tu g + (if g = f then 1 else 0) := by
  unfold TranslationUnit.get_function_call_count
  by_cases hc : dictContains tu.function_call_count f
  · rw [if_neg (by simp [hc])]
    by_cases hg : g = f
    · subst hg
      rw [if_pos rfl]
      unfold ccLookup
      rw [dictGet_set_self]
      rfl
    · rw [if_neg hg]
      unfold ccLookup
      rw [dictGet_set_other _ _ _ hg]
      omega
  · rw [if_pos (by simpa using hc)]
    by_cases hg : g = f
    · subst hg
      rw [if_pos rfl]
      unfold ccLookup
      rw [dictGet_set_self]
      rw [dictGet_of_not_contains (by simpa using hc)]
      rfl
    · rw [if_neg hg]
      unfold ccLookup
      rw [dictGet_set_other _ _ _ hg]
      omega

theorem sameCounters_refl (tu : TranslationUnit) : sameCounters tu tu :=
  ⟨rfl, rfl, rfl, rfl⟩

theorem sameCounters_trans {t₁ t₂ t₃ : TranslationUnit}
    (h₁ : sameCounters t₁ t₂) (h₂ : sameCounters t₂ t₃) : sameCounters t₁ t₃ :=
  ⟨h₂.1.trans h₁.1, h₂.2.1.trans h₁.2.1, h₂.2.2.1.trans h₁.2.2.1,
   h₂.2.2.2.trans h₁.2.2.2⟩

theorem get_static_label_state {tu : TranslationUnit} {i : Int} {l : String}
    {tu' : TranslationUnit} (h : tu.get_static_label i = .ok (l, tu')) :
    sameCounters tu tu' := by
  unfold TranslationUnit.get_static_label at h
  cases hg : tu.getStaticPfx with
  | error e => rw [hg] at h; simp at h
  | ok sp =>
    rw [hg] at h
    simp only [ok_bind] at h
    split at h <;>
    · have h2 := congrArg Prod.snd (Except.ok.inj h)
      simp at h2
      subst h2
      exact ⟨rfl, rfl, rfl, rfl⟩

theorem push_static_state {tu : TranslationUnit} {off : Int} {asm : String}
    {tu' : TranslationUnit} (h : tu.push_static off = .ok (asm, tu')) :
    sameCounters tu tu' := by
  unfold TranslationUnit.push_static at h
  cases hg : tu.get_static_label off with
  | error e => rw [hg] at h; simp at h
  | ok v =>
    obtain ⟨l, tu₁⟩ := v
    rw [hg] at h
    simp only [ok_bind] at h
    have h2 := congrArg Prod.snd (Except.ok.inj h)
    simp at h2
    subst h2
    exact get_static_label_state hg

theorem push_command_state {tu : TranslationUnit} {seg : String} {off : Int}
    {asm : String} {tu' : TranslationUnit}
    (h : tu.push_command seg off = .ok (asm, tu')) : sameCounters tu tu' := by
  unfold TranslationUnit.push_command at h
  split at h
  · split at h
    · have h2 := congrArg Prod.snd (Except.ok.inj h)
      simp at h2; subst h2
      exact sameCounters_refl tu
    · split at h
      · cases hp : tu.push_static off with
        | error e => rw [hp] at h; simp at h
        | ok v =>
          obtain ⟨code, tu₁⟩ := v
          rw [hp] at h
          simp only [ok_bind] at h
          have h2 := congrArg Prod.snd (Except.ok.inj h)
          simp at h2; subst h2
          exact push_static_state hp
      · split at h
        · cases hp : TranslationUnit.push_temp off with
          | error e => rw [hp] at h; simp at h
          | ok code =>
            rw [hp] at h
            simp only [ok_bind] at h
            have h2 := congrArg Prod.snd (Except.ok.inj h)
            simp at h2; subst h2
            exact sameCounters_refl tu
        · split at h
          · cases hp : TranslationUnit.push_pointer off with
            | error e => rw [hp] at h; simp at h
            | ok code =>
              rw [hp] at h
              simp only [ok_bind] at h
              have h2 := congrArg Prod.snd (Except.ok.inj h)
              simp at h2; subst h2
              exact sameCounters_refl tu
          · have h2 := congrArg Prod.snd (Except.ok.inj h)
            simp at h2; subst h2
            exact sameCounters_refl tu
  · simp at h

theorem pop_command_state {tu : TranslationUnit} {seg : String} {off : Int}
    {asm : String} {tu' : TranslationUnit}
    (h : tu.pop_command seg off = .ok (asm, tu')) : sameCounters tu tu' := by
  unfold TranslationUnit.pop_command at h
  split at h
  · split at h
    · simp at h
    · split at h
      · cases hp : TranslationUnit.check_temp_address off with
        | error e => rw [hp] at h; simp at h
        | ok u =>
          rw [hp] at h
          simp only [ok_bind] at h
          have h2 := congrArg Prod.snd (Except.ok.inj h)
          simp at h2; subst h2
          exact sameCounters_refl tu
      · split at h
        · cases hp : tu.get_static_label off with
          | error e => rw [hp] at h; simp at h
          | ok v =>
            obtain ⟨l, tu₁⟩ := v
            rw [hp] at h
            simp only [ok_bind] at h
            have h2 := congrArg Prod.snd (Except.ok.inj h)
            simp at h2; subst h2
            exact get_static_label_state hp
        · split at h
          · cases hp : TranslationUnit.check_pointer_value off with
            | error e => rw [hp] at h; simp at h
            | ok u =>
              rw [hp] at h
              simp only [ok_bind] at h
              have h2 := congrArg Prod.snd (Except.ok.inj h)
              simp at h2; subst h2
              exact sameCounters_refl tu
          · split at h
            · have h2 := congrArg Prod.snd (Except.ok.inj h)
              simp at h2; subst h2
              exact sameCounters_refl tu
            · split at h
              · have h2 := congrArg Prod.snd (Except.ok.inj h)
                simp at h2; subst h2
                exact sameCounters_refl tu
              · have h2 := congrArg Prod.snd (Except.ok.inj h)
                simp at h2; subst h2
                exact sameCounters_refl tu
  · simp at h

/-- The state change of `arithmetic_command`: the matching comparison
counter is incremented, everything else that drives label generation is
unchanged. -/
theorem arithmetic_command_state {tu : TranslationUnit} {c : String}
    {asm : String} {tu' : TranslationUnit}
    (h : tu.arithmetic_command c = some (asm, tu')) :
    tu'.function_call_count = tu.function_call_count ∧
    tu'.eq_label_count = tu.eq_label_count + (if c = "eq" then 1 else 0) ∧
    tu'.gt_label_count = tu.gt_label_count + (if c = "gt" then 1 else 0) ∧
    tu'.lt_label_count = tu.lt_label_count + (if c = "lt" then 1 else 0) := by
  unfold TranslationUnit.arithmetic_command at h
  split at h
  · split at h
    · rename_i hc
      have h2 := congrArg Prod.snd (Option.some.inj h)
      simp at h2; subst h2
      simp [hc]
    · split at h
      · rename_i hc
        have h2 := congrArg Prod.snd (Option.some.inj h)
        simp at h2; subst h2
        simp [hc]
      · split at h
        · rename_i hc
          have h2 := congrArg Prod.snd (Option.some.inj h)
          simp at h2; subst h2
          simp [hc]
        · split at h
          · rename_i hc
            have h2 := congrArg Prod.snd (Option.some.inj h)
            simp at h2; subst h2
            simp [hc]
          · split at h
            · rename_i hc
              have h2 := congrArg Prod.snd (Option.some.inj h)
              simp at h2; subst h2
              simp [hc]
            · split at h
              · rename_i hc
                have h2 := congrArg Prod.snd (Option.some.inj h)
                simp at h2; subst h2
                simp [hc]
              · rename_i h1 h2 h3 h4 h5 h6
                split at h
                · have h2 := congrArg Prod.snd (Option.some.inj h)
                  simp at h2; subst h2
                  simp [h4, h5, h6]
                · split at h
                  · have h2 := congrArg Prod.snd (Option.some.inj h)
                    simp at h2; subst h2
                    simp [h4, h5, h6]
                  · have h2 := congrArg Prod.snd (Option.some.inj h)
                    simp at h2; subst h2
                    simp [h4, h5, h6]
  · simp at h

/-- The two branches of `__get_function_call_count` touch only
`function_call_count`. -/
theorem gfcc_counters (tu : TranslationUnit) (f : String) :
    (tu.get_function_call_count f).2.eq_label_count = tu.eq_label_count ∧
    (tu.get_function_call_count f).2.gt_label_count = tu.gt_label_count ∧
    (tu.get_function_call_count f).2.lt_label_count = tu.lt_label_count := by
  unfold TranslationUnit.get_function_call_count
  split <;> exact ⟨rfl, rfl, rfl⟩

/-- `call_function` in closed form: the emitted code is `call_code` with
the freshly bumped per-callee count, and the state is the bumped one. -/
theorem call_function_eq (tu : TranslationUnit) (f : String) (n : Int) :
    tu.call_function f n =
      (call_code f n (ccLookup tu f + 1), (tu.get_function_call_count f).2) := by
  rcases hp : tu.get_function_call_count f with ⟨c, tu₂⟩
  have hc : c = ccLookup tu f + 1 := by
    have hh := gfcc_count tu f
    rw [hp] at hh
    exact hh
  subst hc
  unfold TranslationUnit.call_function TranslationUnit.get_return_label
  rw [hp]
  simp only [call_code, String.append_assoc]

/-- If `arithmetic_command` returns `None` the command is not one of the
comparison commands. -/
theorem arithmetic_none_ne {tu : TranslationUnit} {c : String}
    (h : tu.arithmetic_command c = none) : c ≠ "eq" ∧ c ≠ "gt" ∧ c ≠ "lt" := by
  refine ⟨?_, ?_, ?_⟩ <;> intro hc <;> subst hc
  · rw [show tu.arithmetic_command "eq" = some
      (TranslationUnit.comparison_command ("EQ" ++ natToString (tu.eq_label_count + 1)) "JEQ",
        { tu with eq_label_count := tu.eq_label_count + 1 }) from rfl] at h
    cases h
  · rw [show tu.arithmetic_command "gt" = some
      (TranslationUnit.comparison_command ("GT" ++ natToString (tu.gt_label_count + 1)) "JGT",
        { tu with gt_label_count := tu.gt_label_count + 1 }) from rfl] at h
    cases h
  · rw [show tu.arithmetic_command "lt" = some
      (TranslationUnit.comparison_command ("LT" ++ natToString (tu.lt_label_count + 1)) "JLT",
        { tu with lt_label_count := tu.lt_label_count + 1 }) from rfl] at h
    cases h

/-- One operation's effect on the label-generating state. -/
theorem apply_state {op : TUOp} {tu : TranslationUnit} {asm : String}
    {tu' : TranslationUnit} (h : op.apply tu = .ok (asm, tu')) :
    tu'.eq_label_count = tu.eq_label_count + (if op = .arith "eq" then 1 else 0) ∧
    tu'.gt_label_count = tu.gt_label_count + (if op = .arith "gt" then 1 else 0) ∧
    tu'.lt_label_count = tu.lt_label_count + (if op = .arith "lt" then 1 else 0) ∧
    ∀ f, ccLookup tu' f = ccLookup tu f + op.callInc f := by
  cases op with
  | setFilename fn =>
    have h2 := congrArg Prod.snd (Except.ok.inj h)
    simp at h2; subst h2
    simp [TranslationUnit.set_filename, ccLookup, TUOp.callInc]
  | push seg off =>
    obtain ⟨e1, e2, e3, e4⟩ := push_command_state h
    simp [ccLookup, e1, e2, e3, e4, TUOp.callInc]
  | pop seg off =>
    obtain ⟨e1, e2, e3, e4⟩ := pop_command_state h
    simp [ccLookup, e1, e2, e3, e4, TUOp.callInc]
  | arith c =>
    simp only [TUOp.apply] at h
    cases ha : tu.arithmetic_command c with
    | none =>
      rw [ha] at h
      have h2 := congrArg Prod.snd (Except.ok.inj h)
      simp at h2; subst h2
      obtain ⟨n1, n2, n3⟩ := arithmetic_none_ne ha
      simp [ccLookup, n1, n2, n3, TUOp.callInc]
    | some v =>
      obtain ⟨a, tu₁⟩ := v
      rw [ha] at h
      have h2 := congrArg Prod.snd (Except.ok.inj h)
      simp at h2; subst h2
      obtain ⟨e1, e2, e3, e4⟩ := arithmetic_command_state ha
      simp only [TUOp.arith.injEq]
      exact ⟨e2, e3, e4, fun f => by simp [ccLookup, e1, TUOp.callInc]⟩
  | label l =>
    have h2 := congrArg Prod.snd (Except.ok.inj h)
    simp at h2; subst h2
    simp [ccLookup, TUOp.callInc]
  | goto l =>
    have h2 := congrArg Prod.snd (Except.ok.inj h)
    simp at h2; subst h2
    simp [ccLookup, TUOp.callInc]
  | ifGoto l =>
    have h2 := congrArg Prod.snd (Except.ok.inj h)
    simp at h2; subst h2
    simp [ccLookup, TUOp.callInc]
  | call g m =>
    simp only [TUOp.apply] at h
    rw [call_function_eq] at h
    have h2 := congrArg Prod.snd (Except.ok.inj h)
    simp at h2; subst h2
    obtain ⟨e1, e2, e3⟩ := gfcc_counters tu g
    refine ⟨by simp [e1], by simp [e2], by simp [e3], fun f => ?_⟩
    rw [show TUOp.callInc (.call g m) f = if f = g then 1 else 0 from rfl]
    exact gfcc_state tu g f
  | func fn k =>
    have h2 := congrArg Prod.snd (Except.ok.inj h)
    simp at h2; subst h2
    simp [TranslationUnit.function_declaration, ccLookup, TUOp.callInc]
  | ret =>
    simp only [TUOp.apply] at h
    cases hr : TranslationUnit.return_from_function with
    | error e => rw [hr] at h; simp at h
    | ok s =>
      rw [hr] at h
      simp only [ok_bind] at h
      have h2 := congrArg Prod.snd (Except.ok.inj h)
      simp at h2; subst h2
      simp [ccLookup, TUOp.callInc]

/-- Inversion of a bind that succeeded. -/
theorem bind_ok_inv {α β : Type} {e : Except VMErr α} {k : α → Except VMErr β}
    {r : β} (h : (e >>= k) = .ok r) : ∃ a, e = .ok a ∧ k a = .ok r := by
  cases e with
  | error err => simp at h
  | ok a => exact ⟨a, rfl, h⟩

/-- Inversion of a successful run on a cons. -/
theorem runOps_cons_ok {op : TUOp} {ops : List TUOp} {tu : TranslationUnit}
    {res} (h : runOps (op :: ops) tu = .ok res) :
    ∃ asm tu₁ rest tu₂, op.apply tu = .ok (asm, tu₁) ∧
      runOps ops tu₁ = .ok (rest, tu₂) ∧ res = (asm :: rest, tu₂) := by
  unfold runOps at h
  obtain ⟨v, ha, h⟩ := bind_ok_inv h
  obtain ⟨asm, tu₁⟩ := v
  obtain ⟨w, hr, h⟩ := bind_ok_inv h
  obtain ⟨rest, tu₂⟩ := w
  exact ⟨asm, tu₁, rest, tu₂, ha, hr, (Except.ok.inj h).symm⟩

/-- A successful run produces one assembly fragment per operation. -/
theorem runOps_length : ∀ {ops : List TUOp} {tu : TranslationUnit} {res},
    runOps ops tu = .ok res → res.1.length = ops.length := by
  intro ops
  induction ops with
  | nil => intro tu res h; cases Except.ok.inj h; rfl
  | cons op ops ih =>
    intro tu res h
    obtain ⟨asm, tu₁, rest, tu₂, ha, hr, hres⟩ := runOps_cons_ok h
    subst hres
    simpa using ih hr

/-- A successful run advances each counter by the number of matching
operations. -/
theorem runOps_state : ∀ {ops : List TUOp} {tu : TranslationUnit} {res},
    runOps ops tu = .ok res →
    res.2.eq_label_count = tu.eq_label_count + countArith "eq" ops ∧
    res.2.gt_label_count = tu.gt_label_count + countArith "gt" ops ∧
    res.2.lt_label_count = tu.lt_label_count + countArith "lt" ops ∧
    ∀ f, ccLookup res.2 f = ccLookup tu f + countCalls f ops := by
  intro ops
  induction ops with
  | nil =>
    intro tu res h
    cases Except.ok.inj h
    exact ⟨rfl, rfl, rfl, fun f => rfl⟩
  | cons op ops ih =>
    intro tu res h
    obtain ⟨asm, tu₁, rest, tu₂, ha, hr, hres⟩ := runOps_cons_ok h
    subst hres
    obtain ⟨a1, a2, a3, a4⟩ := apply_state ha
    obtain ⟨b1, b2, b3, b4⟩ := ih hr
    refine ⟨?_, ?_, ?_, fun f => ?_⟩
    · rw [b1, a1]
      unfold countArith
      rw [List.countP_cons]
      simp only [decide_eq_true_eq]
      split <;> omega
    · rw [b2, a2]
      unfold countArith
      rw [List.countP_cons]
      simp only [decide_eq_true_eq]
      split <;> omega
    · rw [b3, a3]
      unfold countArith
      rw [List.countP_cons]
      simp only [decide_eq_true_eq]
      split <;> omega
    · rw [b4 f, a4 f]
      unfold countCalls
      simp only [List.map_cons, List.sum_cons]
      omega

/-- A run over a concatenation decomposes. -/
theorem runOps_append_ok : ∀ {l₁ l₂ : List TUOp} {tu : TranslationUnit} {res},
    runOps (l₁ ++ l₂) tu = .ok res →
    ∃ a₁ tu₁ a₂ tu₂, runOps l₁ tu = .ok (a₁, tu₁) ∧
      runOps l₂ tu₁ = .ok (a₂, tu₂) ∧ res = (a₁ ++ a₂, tu₂) := by
  intro l₁
  induction l₁ with
  | nil =>
    intro l₂ tu res h
    exact ⟨[], tu, res.1, res.2, rfl, h, rfl⟩
  | cons op t ih =>
    intro l₂ tu res h
    rw [List.cons_append] at h
    obtain ⟨asm, tu₁, rest, tu₂, ha, hr, hres⟩ := runOps_cons_ok h
    obtain ⟨a₁, tuA, a₂, tuB, h₁, h₂, hres₂⟩ := ih hr
    refine ⟨asm :: a₁, tuA, a₂, tuB, ?_, h₂, ?_⟩
    · unfold runOps
      rw [ha]
      simp only [ok_bind]
      rw [h₁]
      rfl
    · have e1 : rest = a₁ ++ a₂ := congrArg Prod.fst hres₂
      have e2 : tu₂ = tuB := congrArg Prod.snd hres₂
      rw [hres, e1, e2]
      simp

/-- Locate the processing of the `i`-th operation inside a successful run:
the prefix before it succeeds, the operation's own dispatch succeeds from
the prefix's final state, and the `i`-th output fragment is what that
dispatch emitted. -/
theorem runOps_elem {ops : List TUOp} {tu0 : TranslationUnit} {asms : List String}
    {tuF : TranslationUnit} (h : runOps ops tu0 = .ok (asms, tuF))
    {i : Nat} {op : TUOp} (hop : ops[i]? = some op) :
    ∃ tu₁ asm tu₂, runOps (ops.take i) tu0 = .ok (asms.take i, tu₁) ∧
      op.apply tu₁ = .ok (asm, tu₂) ∧ asms[i]? = some asm := by
  have hi : i < ops.length := by
    rw [List.getElem?_eq_some] at hop
    exact hop.1
  have hsplit : ops.take i ++ ops.drop i = ops := List.take_append_drop i ops
  have hdrop : ops.drop i = op :: ops.drop (i + 1) := by
    rw [← List.getElem_cons_drop ops i hi]
    rw [List.getElem?_eq_some] at hop
    obtain ⟨_, he⟩ := hop
    rw [he]
  rw [← hsplit] at h
  obtain ⟨a₁, tu₁, a₂, tu₂, h₁, h₂, hres⟩ := runOps_append_ok h
  rw [hdrop] at h₂
  obtain ⟨asm, tuA, rest, tuB, ha, hr, hres₂⟩ := runOps_cons_ok h₂
  have hlen : a₁.length = i := by
    have := runOps_length h₁
    simp only [List.length_take] at this
    omega
  have hasms : asms = a₁ ++ a₂ := congrArg Prod.fst hres
  refine ⟨tu₁, asm, tuA, ?_, ha, ?_⟩
  · have htake : (a₁ ++ a₂).take i = a₁ := by
      rw [← hlen]
      exact List.take_left _ _
    rw [hasms, htake]
    exact h₁
  · rw [hasms, List.getElem?_append_right (by omega)]
    rw [hlen]
    simp only [Nat.sub_self]
    have e2 : a₂ = asm :: rest := congrArg Prod.fst hres₂
    rw [e2]
    simp

/-! # Claim C6: return labels -/

/-- C6 (confirmed): in any successful run starting from a fresh translator,
the `i`-th operation being `call F n` makes the `i`-th emitted fragment the
call sequence whose return label is `F$ret.k` with
`k = (number of calls to F among the first i operations) + 1` — per-callee
counting 1, 2, 3, … from the first call, never reusing a value, unaffected
by intervening `set_filename`s or calls to other functions. -/
theorem C6_return_labels (ops : List TUOp) (asms : List String)
    (tuF : TranslationUnit)
    (h : runOps ops (TranslationUnit.init none) = .ok (asms, tuF))
    (i : Nat) (F : String) (n : Int) (hop : ops[i]? = some (.call F n)) :
    asms[i]? = some (call_code F n (countCalls F (ops.take i) + 1)) := by
  obtain ⟨tu₁, asm, tu₂, h₁, ha, hasm⟩ := runOps_elem h hop
  simp only [TUOp.apply] at ha
  rw [call_function_eq] at ha
  have e := congrArg Prod.fst (Except.ok.inj ha)
  simp only at e
  have hcc := (runOps_state h₁).2.2.2 F
  simp only at hcc
  rw [show ccLookup (TranslationUnit.init none) F = 0 from rfl] at hcc
  rw [hasm, ← e, hcc]
  simp

/-- C6 witness: two successive `call f 0` operations get return labels
`f$ret.1` and `f$ret.2`. -/
theorem C6_witness :
    [call_code "f" 0 1, call_code "f" 0 2][1]? =
      some (call_code "f" 0
        (countCalls "f" ([TUOp.call "f" 0, TUOp.call "f" 0].take 1) + 1)) :=
  C6_return_labels [TUOp.call "f" 0, TUOp.call "f" 0]
    [call_code "f" 0 1, call_code "f" 0 2]
    { function_call_count := [("f", 2)] }
    (by decide) 1 "f" 0 (by decide)

/-! # Lemmas about label extraction -/

theorem ldAux_start_nil : ldAux .start [] = [] := rfl

theorem ldAux_dead_nil : ldAux .dead [] = [] := rfl

theorem ldAux_start_nl (r : List Char) : ldAux .start ('\n' :: r) = ldAux .start r := rfl

theorem ldAux_start_open (r : List Char) :
    ldAux .start ('(' :: r) = ldAux (.cand []) r := rfl

theorem ldAux_start_other {c : Char} (h1 : ¬ c = '\n') (h2 : ¬ c = '(')
    (r : List Char) : ldAux .start (c :: r) = ldAux .dead r := by
  simp only [ldAux]
  rw [if_neg h1, if_neg h2]

theorem ldAux_dead_nl (r : List Char) : ldAux .dead ('\n' :: r) = ldAux .start r := rfl

theorem ldAux_dead_other {c : Char} (h : ¬ c = '\n') (r : List Char) :
    ldAux .dead (c :: r) = ldAux .dead r := by
  simp only [ldAux]
  rw [if_neg h]

theorem ldAux_cand_nl_close (t r : List Char) :
    ldAux (.cand (')' :: t)) ('\n' :: r) = t.reverse :: ldAux .start r := rfl

theorem ldAux_cand_nl_nil (r : List Char) :
    ldAux (.cand []) ('\n' :: r) = ldAux .start r := rfl

theorem closeCand_other {d : Char} (hd : ¬ d = ')') (t : List Char) :
    closeCand (d :: t) = [] := by
  unfold closeCand
  split
  · rename_i t2 heq
    exact absurd (List.cons.inj heq).1 hd
  · rfl

theorem ldAux_cand_nl_other {d : Char} (hd : ¬ d = ')') (t r : List Char) :
    ldAux (.cand (d :: t)) ('\n' :: r) = ldAux .start r := by
  show closeCand (d :: t) ++ ldAux .start r = ldAux .start r
  rw [closeCand_other hd]
  rfl

theorem ldAux_cand_other {c : Char} (h : ¬ c = '\n') (acc r : List Char) :
    ldAux (.cand acc) (c :: r) = ldAux (.cand (c :: acc)) r := by
  rw [ldAux.eq_def]
  simp [h]

theorem ldAux_dead_append {L : List Char} (h : '\n' ∉ L) :
    ∀ (r : List Char), ldAux .dead (L ++ r) = ldAux .dead r := by
  induction L with
  | nil => intro r; rfl
  | cons c t ih =>
    intro r
    have hc : ¬ c = '\n' := fun hh => h (hh ▸ List.mem_cons_self c t)
    rw [List.cons_append, ldAux_dead_other hc]
    exact ih (fun hm => h (List.mem_cons_of_mem _ hm)) r

theorem ldAux_cand_append {L : List Char} (h : '\n' ∉ L) :
    ∀ (acc r : List Char),
      ldAux (.cand acc) (L ++ r) = ldAux (.cand (L.reverse ++ acc)) r := by
  induction L with
  | nil => intro acc r; rfl
  | cons c t ih =>
    intro acc r
    have hc : ¬ c = '\n' := fun hh => h (hh ▸ List.mem_cons_self c t)
    rw [List.cons_append, ldAux_cand_other hc]
    rw [ih (fun hm => h (List.mem_cons_of_mem _ hm)) (c :: acc) r]
    simp [List.reverse_cons, List.append_assoc]

/-- Scanning one full (newline-terminated) line produces exactly the
label-definition reading of that line before scanning continues. -/
theorem ldAux_start_line {x : List Char} (hx : '\n' ∉ x) (r : List Char) :
    ldAux .start (x ++ '\n' :: r) =
      (labelDefOfLine x).toList ++ ldAux .start r := by
  cases x with
  | nil => simp [labelDefOfLine, ldAux_start_nl]
  | cons c x' =>
    have hxt : '\n' ∉ x' := fun hm => hx (List.mem_cons_of_mem _ hm)
    by_cases hc : c = '('
    · subst hc
      rw [List.cons_append, ldAux_start_open, ldAux_cand_append hxt [] ('\n' :: r)]
      rcases hrev : x'.reverse with _ | ⟨d, t⟩
      · have hx0 : x' = [] := by simpa using congrArg List.reverse hrev
        subst hx0
        simp only [List.reverse_nil, List.nil_append]
        rw [ldAux_cand_nl_nil]
        simp [labelDefOfLine]
      · have hx0 : x' = t.reverse ++ [d] := by simpa using congrArg List.reverse hrev
        subst hx0
        simp only [List.reverse_append, List.reverse_cons, List.reverse_reverse,
          List.reverse_nil, List.nil_append, List.singleton_append, List.append_nil]
        by_cases hd : d = ')'
        · subst hd
          rw [ldAux_cand_nl_close]
          have hlab : labelDefOfLine ('(' :: (t.reverse ++ [')'])) = some t.reverse := by
            unfold labelDefOfLine
            rw [if_pos]
            · simp
            · refine ⟨rfl, ?_, by simp⟩
              rw [show ('(' :: (t.reverse ++ [')']) : List Char) =
                  ('(' :: t.reverse) ++ [')'] from by simp]
              rw [List.getLast?_concat]
          rw [hlab]
          rfl
        · rw [ldAux_cand_nl_other hd]
          have hlab : labelDefOfLine ('(' :: (t.reverse ++ [d])) = none := by
            unfold labelDefOfLine
            rw [if_neg]
            intro hcond
            obtain ⟨h1, h2, h3⟩ := hcond
            rw [show ('(' :: (t.reverse ++ [d]) : List Char) =
                ('(' :: t.reverse) ++ [d] from by simp] at h2
            rw [List.getLast?_concat] at h2
            exact hd (Option.some.inj h2)
          rw [hlab]
          rfl
    · have hcn : ¬ c = '\n' := fun hh => hx (hh ▸ List.mem_cons_self c x')
      rw [List.cons_append, ldAux_start_other hcn hc]
      rw [ldAux_dead_append hxt ('\n' :: r), ldAux_dead_nl]
      simp [labelDefOfLine, hc]

/-! # Label definitions of the generated fragments -/

theorem labelDefOfLine_not_open {x : List Char} (hc : x.head? ≠ some '(') :
    labelDefOfLine x = none := by
  unfold labelDefOfLine
  rw [if_neg]
  rintro ⟨h1, -⟩
  exact hc h1

theorem labelDefOfLine_paren (x : List Char) :
    labelDefOfLine ('(' :: (x ++ [')'])) = some x := by
  unfold labelDefOfLine
  rw [if_pos]
  · simp
  · refine ⟨rfl, ?_, by simp⟩
    rw [show ('(' :: (x ++ [')']) : List Char) = ('(' :: x) ++ [')'] from by simp]
    rw [List.getLast?_concat]

/-- A full line that does not start with `(` defines no label. -/
theorem ldStart_skipLine {x : List Char} (hx : '\n' ∉ x) (hc : x.head? ≠ some '(')
    (r : List Char) : ldAux .start (x ++ '\n' :: r) = ldAux .start r := by
  rw [ldAux_start_line hx, labelDefOfLine_not_open hc]
  rfl

/-- A full `(x)` line defines exactly the label `x`. -/
theorem ldStart_parenLine {x : List Char} (hx : '\n' ∉ x) (r : List Char) :
    ldAux .start (('(' :: (x ++ [')'])) ++ '\n' :: r) = x :: ldAux .start r := by
  have hx2 : '\n' ∉ ('(' :: (x ++ [')']) : List Char) := by
    intro hm
    rcases List.mem_cons.mp hm with hm | hm
    · cases hm
    · rcases List.mem_append.mp hm with hm | hm
      · exact hx hm
      · rcases List.mem_cons.mp hm with hm | hm
        · cases hm
        · cases hm
  rw [ldAux_start_line hx2, labelDefOfLine_paren]
  rfl

theorem ldStart_chunk_cmp_prologue (r : List Char) :
    ldAux .start ("@SP\nAM=M-1\nD=M\nA=A-1\nD=M-D\n".data ++ r) = ldAux .start r := rfl

theorem ldStart_chunk_dfalse (r : List Char) :
    ldAux .start ("D=0\n".data ++ r) = ldAux .start r := rfl

theorem ldStart_chunk_jmp (r : List Char) :
    ldAux .start ("0;JMP\n".data ++ r) = ldAux .start r := rfl

theorem ldStart_chunk_dtrue (r : List Char) :
    ldAux .start ("D=-1\n".data ++ r) = ldAux .start r := rfl

theorem ldStart_chunk_cmp_epilogue :
    ldAux .start "@SP\nA=M-1\nM=D\n".data = [] := rfl

theorem no_newline_cons {c : Char} (hc : ¬ c = '\n') {x : List Char}
    (hx : '\n' ∉ x) : '\n' ∉ (c :: x) := by
  intro hm
  rcases List.mem_cons.mp hm with hm | hm
  · exact hc hm.symm
  · exact hx hm

theorem no_newline_str_nat {s : String} (hs : '\n' ∉ s.data) (m : Nat) :
    '\n' ∉ (s ++ natToString m).data := by
  rw [data_append, natToString_data]
  intro hm
  rcases List.mem_append.mp hm with hm | hm
  · exact hs hm
  · exact natDigits_no_newline m hm

/-- The label definitions of a comparison block are exactly the comparison
label and its `_END` variant, in that order. -/
theorem labelDefs_comparison {label cond : String}
    (hl : '\n' ∉ label.data) (hc : '\n' ∉ cond.data) :
    labelDefs (TranslationUnit.comparison_command label cond) =
      [label.data, label.data ++ "_END".data] := by
  have hEND : '\n' ∉ (label.data ++ "_END".data) := by
    intro hm
    rcases List.mem_append.mp hm with hm | hm
    · exact hl hm
    · revert hm; decide
  have hdata : (TranslationUnit.comparison_command label cond).data =
      "@SP\nAM=M-1\nD=M\nA=A-1\nD=M-D\n".data ++
        (('@' :: label.data) ++ '\n' ::
        (('D' :: ';' :: cond.data) ++ '\n' ::
        ("D=0\n".data ++
        (('@' :: (label.data ++ "_END".data)) ++ '\n' ::
        ("0;JMP\n".data ++
        (('(' :: (label.data ++ [')'])) ++ '\n' ::
        ("D=-1\n".data ++
        (('(' :: ((label.data ++ "_END".data) ++ [')'])) ++ '\n' ::
        "@SP\nA=M-1\nM=D\n".data)))))))) := by
    simp only [TranslationUnit.comparison_command, TranslationUnit.pop_stack_to_d_reg,
      data_append, List.append_assoc, List.cons_append, List.nil_append]
    rfl
  unfold labelDefs
  rw [hdata, ldStart_chunk_cmp_prologue]
  rw [ldStart_skipLine (no_newline_cons (by decide) hl) (by simp)]
  rw [ldStart_skipLine (no_newline_cons (by decide) (no_newline_cons (by decide) hc))
    (by simp)]
  rw [ldStart_chunk_dfalse]
  rw [ldStart_skipLine (no_newline_cons (by decide) hEND) (by simp)]
  rw [ldStart_chunk_jmp, ldStart_parenLine hl, ldStart_chunk_dtrue,
    ldStart_parenLine hEND, ldStart_chunk_cmp_epilogue]

theorem ldStart_chunk_call_mid1 (r : List Char) :
    ldAux .start
      (("D=A\n@SP\nA=M\nM=D\n@SP\nM=M+1\n@LCL\nD=M\n@SP\nA=M\nM=D\n@SP\nM=M+1\n" ++
        "@ARG\nD=M\n@SP\nA=M\nM=D\n@SP\nM=M+1\n@THIS\nD=M\n@SP\nA=M\nM=D\n@SP\nM=M+1\n" ++
        "@THAT\nD=M\n@SP\nA=M\nM=D\n@SP\nM=M+1\n@SP\nD=M\n@5\nD=D-A\n").data ++ r) =
      ldAux .start r := rfl

theorem ldStart_chunk_call_mid2 (r : List Char) :
    ldAux .start ("D=D-A\n@ARG\nM=D\n@SP\nD=M\n@LCL\nM=D\n".data ++ r) =
      ldAux .start r := rfl

/-- The label definitions of a `call` block are exactly the return label
`f$ret.k`. -/
theorem labelDefs_call {f : String} (hf : '\n' ∉ f.data) (n : Int) (k : Nat) :
    labelDefs (call_code f n k) = [f.data ++ ("$ret.".data ++ natDigits k)] := by
  have hrl : '\n' ∉ (f.data ++ ("$ret.".data ++ natDigits k)) := by
    intro hm
    rcases List.mem_append.mp hm with hm | hm
    · exact hf hm
    · rcases List.mem_append.mp hm with hm | hm
      · revert hm; decide
      · exact natDigits_no_newline k hm
  have hdata : (call_code f n k).data =
      ('@' :: (f.data ++ ("$ret.".data ++ natDigits k))) ++ '\n' ::
      (("D=A\n@SP\nA=M\nM=D\n@SP\nM=M+1\n@LCL\nD=M\n@SP\nA=M\nM=D\n@SP\nM=M+1\n" ++
        "@ARG\nD=M\n@SP\nA=M\nM=D\n@SP\nM=M+1\n@THIS\nD=M\n@SP\nA=M\nM=D\n@SP\nM=M+1\n" ++
        "@THAT\nD=M\n@SP\nA=M\nM=D\n@SP\nM=M+1\n@SP\nD=M\n@5\nD=D-A\n").data ++
      (('@' :: (intToString n).data) ++ '\n' ::
      ("D=D-A\n@ARG\nM=D\n@SP\nD=M\n@LCL\nM=D\n".data ++
      (('@' :: f.data) ++ '\n' ::
      ("0;JMP\n".data ++
      (('(' :: ((f.data ++ ("$ret.".data ++ natDigits k)) ++ [')'])) ++
        '\n' :: [])))))) := by
    simp only [call_code, TranslationUnit.push_return_address_to_stack,
      TranslationUnit.push_segment_pointer_to_stack, TranslationUnit.push_d_reg_to_stack,
      TranslationUnit.set_arg_pointer, TranslationUnit.set_local_pointer,
      natToString, data_append, List.append_assoc, List.cons_append, List.nil_append]
    rfl
  unfold labelDefs
  rw [hdata]
  rw [ldStart_skipLine (no_newline_cons (by decide) hrl) (by simp)]
  rw [ldStart_chunk_call_mid1]
  rw [ldStart_skipLine (no_newline_cons (by decide) (intToString_no_newline n)) (by simp)]
  rw [ldStart_chunk_call_mid2]
  rw [ldStart_skipLine (no_newline_cons (by decide) hf) (by simp)]
  rw [ldStart_chunk_jmp, ldStart_parenLine hrl]
  rfl

/-! # Injectivity of generated-label rendering -/

theorem no_dollar_cmp (k : CmpKind) (n : Nat) (e : Bool) :
    '$' ∉ (GenLabel.cmp k n e).render := by
  intro hm
  simp only [GenLabel.render] at hm
  rcases List.mem_append.mp hm with hm | hm
  · rcases List.mem_append.mp hm with hm | hm
    · cases k <;> revert hm <;> decide
    · exact mem_digits_ne (natDigits_digits n) (by decide) hm
  · cases e <;> revert hm <;> decide

theorem dollar_ret (f : String) (k : Nat) : '$' ∈ (GenLabel.ret f k).render := by
  simp only [GenLabel.render]
  exact List.mem_append.mpr (Or.inl (List.mem_append.mpr (Or.inr (by decide))))

/-- The comparison-kind stems are told apart by their first character. -/
theorem cmpKind_str_head {k₁ k₂ : CmpKind} {X Y : List Char}
    (h : k₁.str.data ++ X = k₂.str.data ++ Y) : k₁ = k₂ := by
  cases k₁ <;> cases k₂ <;>
    first
    | rfl
    | exact absurd (show some 'E' = some 'G' from congrArg List.head? h) (by decide)
    | exact absurd (show some 'E' = some 'L' from congrArg List.head? h) (by decide)
    | exact absurd (show some 'G' = some 'E' from congrArg List.head? h) (by decide)
    | exact absurd (show some 'G' = some 'L' from congrArg List.head? h) (by decide)
    | exact absurd (show some 'L' = some 'E' from congrArg List.head? h) (by decide)
    | exact absurd (show some 'L' = some 'G' from congrArg List.head? h) (by decide)

/-- The digits-plus-optional-`_END` tail of a comparison label determines
its number and `_END` flag. -/
theorem cmp_tail_inj {n₁ n₂ : Nat} {e₁ e₂ : Bool}
    (h : natDigits n₁ ++ (if e₁ then "_END".data else []) =
         natDigits n₂ ++ (if e₂ then "_END".data else [])) : n₁ = n₂ ∧ e₁ = e₂ := by
  cases e₁ <;> cases e₂
  · rw [if_neg (show ¬ (false = true) from by decide), List.append_nil,
      List.append_nil] at h
    exact ⟨natDigits_inj _ _ h, rfl⟩
  · rw [if_neg (show ¬ (false = true) from by decide),
      if_pos (show true = true from rfl), List.append_nil] at h
    have hx : '_' ∈ natDigits n₂ ++ "_END".data :=
      List.mem_append.mpr (Or.inr (by decide))
    rw [← h] at hx
    exact absurd hx (mem_digits_ne (natDigits_digits n₁) (by decide))
  · rw [if_pos (show true = true from rfl),
      if_neg (show ¬ (false = true) from by decide), List.append_nil] at h
    have hx : '_' ∈ natDigits n₁ ++ "_END".data :=
      List.mem_append.mpr (Or.inr (by decide))
    rw [h] at hx
    exact absurd hx (mem_digits_ne (natDigits_digits n₂) (by decide))
  · rw [if_pos (show true = true from rfl)] at h
    exact ⟨natDigits_inj _ _ (List.append_cancel_right h), rfl⟩

/-- Generated-label rendering is injective: distinct abstract labels render
to distinct character strings. -/
theorem render_inj : Function.Injective GenLabel.render := by
  intro a b h
  cases a with
  | cmp k₁ n₁ e₁ =>
    cases b with
    | cmp k₂ n₂ e₂ =>
      simp only [GenLabel.render, List.append_assoc] at h
      have hk : k₁ = k₂ := cmpKind_str_head h
      subst hk
      obtain ⟨hn, he⟩ := cmp_tail_inj (List.append_cancel_left h)
      rw [hn, he]
    | ret f k =>
      have hx := dollar_ret f k
      rw [← h] at hx
      exact absurd hx (no_dollar_cmp k₁ n₁ e₁)
  | ret f₁ k₁ =>
    cases b with
    | cmp k₂ n₂ e₂ =>
      have hx := dollar_ret f₁ k₁
      rw [h] at hx
      exact absurd hx (no_dollar_cmp k₂ n₂ e₂)
    | ret f₂ k₂ =>
      simp only [GenLabel.render] at h
      have hx : ∀ (g : String) (d : List Char),
          (g.data ++ "$ret".data) ++ '.' :: d = (g.data ++ "$ret.".data) ++ d := by
        intro g d
        simp only [List.append_assoc]
        rfl
      have h' : (f₁.data ++ "$ret".data) ++ '.' :: natDigits k₁ =
          (f₂.data ++ "$ret".data) ++ '.' :: natDigits k₂ := by
        rw [hx, hx]
        exact h
      obtain ⟨hB, hd⟩ := append_sep_inj
        (mem_digits_ne (natDigits_digits k₁) (by decide))
        (mem_digits_ne (natDigits_digits k₂) (by decide)) h'
      have hf : f₁ = f₂ := String.ext (List.append_cancel_right hB)
      rw [hf, natDigits_inj _ _ hd]

/-! # Alignment: emitted label definitions are the rendered generated labels -/

/-- The label definitions a label-generating operation's assembly contains
are exactly the rendered labels the abstract generator assigns to it. -/
theorem opEmittedLabels_eq {op : TUOp} {tu : TranslationUnit} {asm : String}
    {tu₁ : TranslationUnit} (h : op.apply tu = .ok (asm, tu₁))
    (hg : op.goodCall = true) :
    opEmittedLabels op asm = (opGenLabels op tu).map GenLabel.render := by
  cases op with
  | arith c =>
    by_cases he : c = "eq"
    · subst he
      have h2 : (Except.ok (TranslationUnit.comparison_command
          ("EQ" ++ natToString (tu.eq_label_count + 1)) "JEQ",
          { tu with eq_label_count := tu.eq_label_count + 1 }) :
            Except VMErr (String × TranslationUnit)) = .ok (asm, tu₁) := h
      have e := congrArg Prod.fst (Except.ok.inj h2)
      simp only at e
      subst e
      simp only [opEmittedLabels, opGenLabels, true_or, if_true]
      rw [labelDefs_comparison (no_newline_str_nat (by decide) _) (by decide)]
      simp [GenLabel.render, CmpKind.str, data_append, natToString_data]
    · by_cases hgt : c = "gt"
      · subst hgt
        have h2 : (Except.ok (TranslationUnit.comparison_command
            ("GT" ++ natToString (tu.gt_label_count + 1)) "JGT",
            { tu with gt_label_count := tu.gt_label_count + 1 }) :
              Except VMErr (String × TranslationUnit)) = .ok (asm, tu₁) := h
        have e := congrArg Prod.fst (Except.ok.inj h2)
        simp only at e
        subst e
        simp only [opEmittedLabels, opGenLabels, true_or, or_true, if_true]
        rw [if_neg (show ¬ ("gt" = "eq") from by decide)]
        rw [labelDefs_comparison (no_newline_str_nat (by decide) _) (by decide)]
        simp [GenLabel.render, CmpKind.str, data_append, natToString_data]
      · by_cases hlt : c = "lt"
        · subst hlt
          have h2 : (Except.ok (TranslationUnit.comparison_command
              ("LT" ++ natToString (tu.lt_label_count + 1)) "JLT",
              { tu with lt_label_count := tu.lt_label_count + 1 }) :
                Except VMErr (String × TranslationUnit)) = .ok (asm, tu₁) := h
          have e := congrArg Prod.fst (Except.ok.inj h2)
          simp only at e
          subst e
          simp only [opEmittedLabels, opGenLabels, true_or, or_true, if_true]
          rw [if_neg (show ¬ ("lt" = "eq") from by decide),
            if_neg (show ¬ ("lt" = "gt") from by decide)]
          rw [labelDefs_comparison (no_newline_str_nat (by decide) _) (by decide)]
          simp [GenLabel.render, CmpKind.str, data_append, natToString_data]
        · simp only [opEmittedLabels, opGenLabels]
          rw [if_neg (show ¬ (c = "eq" ∨ c = "gt" ∨ c = "lt") from by
            simp [he, hgt, hlt]), if_neg he, if_neg hgt, if_neg hlt]
          rfl
  | call g m =>
    simp only [TUOp.apply] at h
    rw [call_function_eq] at h
    have e := congrArg Prod.fst (Except.ok.inj h)
    simp only at e
    subst e
    have hf : '\n' ∉ g.data := by
      simp only [TUOp.goodCall] at hg
      simpa using hg
    simp only [opEmittedLabels, opGenLabels]
    rw [labelDefs_call hf]
    simp [GenLabel.render, List.append_assoc]
  | setFilename fn => simp [opEmittedLabels, opGenLabels]
  | push seg off => simp [opEmittedLabels, opGenLabels]
  | pop seg off => simp [opEmittedLabels, opGenLabels]
  | label l => simp [opEmittedLabels, opGenLabels]
  | goto l => simp [opEmittedLabels, opGenLabels]
  | ifGoto l => simp [opEmittedLabels, opGenLabels]
  | func fn k => simp [opEmittedLabels, opGenLabels]
  | ret => simp [opEmittedLabels, opGenLabels]

/-- Run-level alignment: over a successful run, the label definitions
emitted by the label-generating operations are exactly the rendered
generated labels, in order. -/
theorem runEmittedLabels_eq : ∀ {ops : List TUOp} {tu : TranslationUnit}
    {asms : List String} {tuF : TranslationUnit},
    runOps ops tu = .ok (asms, tuF) → (∀ op ∈ ops, op.goodCall = true) →
    runEmittedLabels ops asms = (runGenLabels ops tu).map GenLabel.render := by
  intro ops
  induction ops with
  | nil =>
    intro tu asms tuF h hg
    simp [runEmittedLabels, runGenLabels]
  | cons op ops ih =>
    intro tu asms tuF h hg
    obtain ⟨asm, tu₁, rest, tu₂, ha, hr, hres⟩ := runOps_cons_ok h
    have e1 : asms = asm :: rest := by
      have := congrArg Prod.fst hres
      simpa using this
    subst e1
    have hG : runGenLabels (op :: ops) tu = opGenLabels op tu ++ runGenLabels ops tu₁ := by
      simp only [runGenLabels]
      rw [ha]
    have hz : runEmittedLabels (op :: ops) (asm :: rest) =
        opEmittedLabels op asm ++ runEmittedLabels ops rest := by
      simp [runEmittedLabels]
    rw [hG, List.map_append, hz,
      opEmittedLabels_eq ha (hg op (List.mem_cons_self _ _)),
      ih hr (fun o ho => hg o (List.mem_cons_of_mem _ ho))]

/-! # Freshness: a run never generates the same label twice -/

theorem apply_counts_mono {op : TUOp} {tu : TranslationUnit} {asm : String}
    {tu₁ : TranslationUnit} (h : op.apply tu = .ok (asm, tu₁)) :
    (∀ k : CmpKind, k.count tu ≤ k.count tu₁) ∧
      ∀ f, ccLookup tu f ≤ ccLookup tu₁ f := by
  obtain ⟨a1, a2, a3, a4⟩ := apply_state h
  refine ⟨fun k => ?_, fun f => by rw [a4 f]; exact Nat.le_add_right _ _⟩
  cases k with
  | eq => simp only [CmpKind.count]; rw [a1]; exact Nat.le_add_right _ _
  | gt => simp only [CmpKind.count]; rw [a2]; exact Nat.le_add_right _ _
  | lt => simp only [CmpKind.count]; rw [a3]; exact Nat.le_add_right _ _

theorem run_counts_mono {ops : List TUOp} {tu : TranslationUnit} {asms : List String}
    {tuF : TranslationUnit} (h : runOps ops tu = .ok (asms, tuF)) :
    (∀ k : CmpKind, k.count tu ≤ k.count tuF) ∧
      ∀ f, ccLookup tu f ≤ ccLookup tuF f := by
  obtain ⟨e1, e2, e3, e4⟩ := runOps_state h
  simp only at e1 e2 e3 e4
  refine ⟨fun k => ?_, fun f => by rw [e4 f]; exact Nat.le_add_right _ _⟩
  cases k with
  | eq => simp only [CmpKind.count]; rw [e1]; exact Nat.le_add_right _ _
  | gt => simp only [CmpKind.count]; rw [e2]; exact Nat.le_add_right _ _
  | lt => simp only [CmpKind.count]; rw [e3]; exact Nat.le_add_right _ _

/-- Every label an operation generates is strictly above the incoming
state's counters and covered by the outgoing state's counters. -/
theorem opGenLabels_fresh {op : TUOp} {tu : TranslationUnit} {asm : String}
    {tu₁ : TranslationUnit} (h : op.apply tu = .ok (asm, tu₁)) :
    ∀ ℓ ∈ opGenLabels op tu, freshAfter tu ℓ ∧ usedBy tu₁ ℓ := by
  cases op with
  | arith c =>
    intro ℓ hℓ
    simp only [opGenLabels] at hℓ
    by_cases he : c = "eq"
    · subst he
      rw [if_pos rfl] at hℓ
      have ha1 := (apply_state h).1
      simp at ha1
      simp only [List.mem_cons, List.not_mem_nil, or_false] at hℓ
      rcases hℓ with rfl | rfl <;>
        exact ⟨by simp [freshAfter, CmpKind.count],
          by simp [usedBy, CmpKind.count, ha1]⟩
    · rw [if_neg he] at hℓ
      by_cases hgt : c = "gt"
      · subst hgt
        rw [if_pos rfl] at hℓ
        have ha2 := (apply_state h).2.1
        simp at ha2
        simp only [List.mem_cons, List.not_mem_nil, or_false] at hℓ
        rcases hℓ with rfl | rfl <;>
          exact ⟨by simp [freshAfter, CmpKind.count],
            by simp [usedBy, CmpKind.count, ha2]⟩
      · rw [if_neg hgt] at hℓ
        by_cases hlt : c = "lt"
        · subst hlt
          rw [if_pos rfl] at hℓ
          have ha3 := (apply_state h).2.2.1
          simp at ha3
          simp only [List.mem_cons, List.not_mem_nil, or_false] at hℓ
          rcases hℓ with rfl | rfl <;>
            exact ⟨by simp [freshAfter, CmpKind.count],
              by simp [usedBy, CmpKind.count, ha3]⟩
        · rw [if_neg hlt] at hℓ
          exact absurd hℓ (List.not_mem_nil ℓ)
  | call g m =>
    intro ℓ hℓ
    simp only [opGenLabels, List.mem_singleton] at hℓ
    subst hℓ
    have ha4 := (apply_state h).2.2.2 g
    simp [TUOp.callInc] at ha4
    exact ⟨by simp [freshAfter], by simp [usedBy, ha4]⟩
  | setFilename fn => intro ℓ hℓ; exact absurd hℓ (List.not_mem_nil ℓ)
  | push seg off => intro ℓ hℓ; exact absurd hℓ (List.not_mem_nil ℓ)
  | pop seg off => intro ℓ hℓ; exact absurd hℓ (List.not_mem_nil ℓ)
  | label l => intro ℓ hℓ; exact absurd hℓ (List.not_mem_nil ℓ)
  | goto l => intro ℓ hℓ; exact absurd hℓ (List.not_mem_nil ℓ)
  | ifGoto l => intro ℓ hℓ; exact absurd hℓ (List.not_mem_nil ℓ)
  | func fn k => intro ℓ hℓ; exact absurd hℓ (List.not_mem_nil ℓ)
  | ret => intro ℓ hℓ; exact absurd hℓ (List.not_mem_nil ℓ)

/-- The labels one operation generates are pairwise distinct. -/
theorem opGenLabels_nodup (op : TUOp) (tu : TranslationUnit) :
    (opGenLabels op tu).Nodup := by
  cases op with
  | arith c =>
    simp only [opGenLabels]
    split_ifs <;> simp
  | call g m => simp [opGenLabels]
  | setFilename fn => simp [opGenLabels]
  | push seg off => simp [opGenLabels]
  | pop seg off => simp [opGenLabels]
  | label l => simp [opGenLabels]
  | goto l => simp [opGenLabels]
  | ifGoto l => simp [opGenLabels]
  | func fn k => simp [opGenLabels]
  | ret => simp [opGenLabels]

theorem fresh_used_absurd {tu : TranslationUnit} {ℓ : GenLabel}
    (h1 : usedBy tu ℓ) (h2 : freshAfter tu ℓ) : False := by
  cases ℓ <;> simp only [usedBy, freshAfter] at h1 h2 <;> omega

theorem usedBy_mono {tu tu' : TranslationUnit}
    (hc : ∀ k : CmpKind, k.count tu ≤ k.count tu')
    (hf : ∀ f, ccLookup tu f ≤ ccLookup tu' f) :
    ∀ {ℓ}, usedBy tu ℓ → usedBy tu' ℓ := by
  intro ℓ h
  cases ℓ with
  | cmp k n e => have := hc k; simp only [usedBy] at h ⊢; omega
  | ret f k => have := hf f; simp only [usedBy] at h ⊢; omega

theorem freshAfter_mono {tu tu' : TranslationUnit}
    (hc : ∀ k : CmpKind, k.count tu ≤ k.count tu')
    (hf : ∀ f, ccLookup tu f ≤ ccLookup tu' f) :
    ∀ {ℓ}, freshAfter tu' ℓ → freshAfter tu ℓ := by
  intro ℓ h
  cases ℓ with
  | cmp k n e => have := hc k; simp only [freshAfter] at h ⊢; omega
  | ret f k => have := hf f; simp only [freshAfter] at h ⊢; omega

/-- Over a successful run the generated labels are pairwise distinct, each
strictly above the initial counters and covered by the final counters. -/
theorem runGenLabels_fresh : ∀ {ops : List TUOp} {tu : TranslationUnit}
    {asms : List String} {tuF : TranslationUnit},
    runOps ops tu = .ok (asms, tuF) →
    (runGenLabels ops tu).Nodup ∧
      ∀ ℓ ∈ runGenLabels ops tu, freshAfter tu ℓ ∧ usedBy tuF ℓ := by
  intro ops
  induction ops with
  | nil =>
    intro tu asms tuF h
    exact ⟨List.nodup_nil, fun ℓ hℓ => absurd hℓ (List.not_mem_nil ℓ)⟩
  | cons op ops ih =>
    intro tu asms tuF h
    obtain ⟨asm, tu₁, rest, tu₂, ha, hr, hres⟩ := runOps_cons_ok h
    have htuF : tuF = tu₂ := by
      have := congrArg Prod.snd hres
      simpa using this
    subst htuF
    have hG : runGenLabels (op :: ops) tu = opGenLabels op tu ++ runGenLabels ops tu₁ := by
      simp only [runGenLabels]
      rw [ha]
    obtain ⟨ihN, ihB⟩ := ih hr
    have hstep := opGenLabels_fresh ha
    have hm₁ := apply_counts_mono ha
    have hm₂ := run_counts_mono hr
    rw [hG]
    constructor
    · refine List.Nodup.append (opGenLabels_nodup op tu) ihN ?_
      intro a ha₁ ha₂
      exact fresh_used_absurd (hstep a ha₁).2 (ihB a ha₂).1
    · intro ℓ hℓ
      rcases List.mem_append.mp hℓ with hm | hm
      · exact ⟨(hstep ℓ hm).1, usedBy_mono hm₂.1 hm₂.2 (hstep ℓ hm).2⟩
      · exact ⟨freshAfter_mono hm₁.1 hm₁.2 (ihB ℓ hm).1, (ihB ℓ hm).2⟩

/-! # Claim C4: uniqueness of emitted labels -/

/-- C4 (corrected): the original claim — every symbolic label emitted in
the output, including the function-scoped labels written by `label`
commands and function entry labels, is unique across the whole output — is
false: nothing deduplicates user-written labels, so two identical `label`
commands emit the same `(<current_function>$<name>)` definition twice (see
the counterexample).  What does hold, and is proved here, is uniqueness of
all the generator-created labels: across any successful run, the
comparison labels `EQn`/`GTn`/`LTn` and their `_END` variants and the
return labels `F$ret.k` are pairwise distinct, for any starting state and
any call operations whose function names contain no newline. -/
theorem C4_amended (ops : List TUOp) (tu0 : TranslationUnit) (asms : List String)
    (tuF : TranslationUnit) (h : runOps ops tu0 = .ok (asms, tuF))
    (hg : ∀ op ∈ ops, op.goodCall = true) :
    (runEmittedLabels ops asms).Nodup := by
  rw [runEmittedLabels_eq h hg]
  exact List.Nodup.map render_inj (runGenLabels_fresh h).1

/-- C4 counterexample: translating a file whose commands are `label x`
twice succeeds, and the concatenated output defines the symbolic label
`$x` twice — emitted labels are not unique across the output. -/
theorem C4_counterexample :
    ((HackParser.init (TranslationUnit.init none)).set_new_file
        ⟨"Demo", ["label x", "label x"]⟩).run =
      .ok (["// --- label x ---\n($x)\n", "// --- label x ---\n($x)\n"],
        { translator := { staticPrefix := some "Demo", filename := some "Demo" },
          file_set := false, line_no := 2,
          source_commands := ["label x", "label x"] }) ∧
    ¬ (allLabelDefs
        ["// --- label x ---\n($x)\n", "// --- label x ---\n($x)\n"]).Nodup := by
  constructor
  · decide
  · decide

/-- C4 witness: a concrete successful run (one `eq`, one `call`) has
pairwise-distinct generated labels. -/
theorem C4_witness :
    runOps [TUOp.arith "eq", TUOp.call "f" 0] (TranslationUnit.init none) =
      .ok ([TranslationUnit.comparison_command ("EQ" ++ natToString 1) "JEQ",
            call_code "f" 0 1],
        { TranslationUnit.init none with
          eq_label_count := 1, function_call_count := [("f", 1)] }) ∧
    (runEmittedLabels [TUOp.arith "eq", TUOp.call "f" 0]
      [TranslationUnit.comparison_command ("EQ" ++ natToString 1) "JEQ",
       call_code "f" 0 1]).Nodup :=
  ⟨by decide,
   C4_amended [TUOp.arith "eq", TUOp.call "f" 0] (TranslationUnit.init none)
     [TranslationUnit.comparison_command ("EQ" ++ natToString 1) "JEQ",
      call_code "f" 0 1]
     { TranslationUnit.init none with
       eq_label_count := 1, function_call_count := [("f", 1)] }
     (by decide) (by decide)⟩

/-! # Claim C7: comparison label numbering -/

/-- C7 (confirmed): in any successful run from a fresh translator, if the
`i`-th operation is the comparison `k` (one of `eq`/`gt`/`lt`), the `i`-th
emitted fragment is the comparison block whose label is the kind's stem
followed by `(number of earlier commands of the same kind) + 1` — three
independent per-kind counters numbering 1, 2, 3, … in order of occurrence
— and that block defines exactly the labels `<stem><n>` and
`<stem><n>_END`. -/
theorem C7_comparison_labels (ops : List TUOp) (asms : List String)
    (tuF : TranslationUnit)
    (h : runOps ops (TranslationUnit.init none) = .ok (asms, tuF))
    (i : Nat) (k : CmpKind) (hop : ops[i]? = some (.arith k.cmd)) :
    asms[i]? = some (TranslationUnit.comparison_command
        (k.str ++ natToString (countArith k.cmd (ops.take i) + 1)) k.jump) ∧
    labelDefs (TranslationUnit.comparison_command
        (k.str ++ natToString (countArith k.cmd (ops.take i) + 1)) k.jump) =
      [(k.str ++ natToString (countArith k.cmd (ops.take i) + 1)).data,
       (k.str ++ natToString (countArith k.cmd (ops.take i) + 1)).data ++
         "_END".data] := by
  obtain ⟨tu₁, asm, tu₂, h₁, ha, hasm⟩ := runOps_elem h hop
  have hstate := runOps_state h₁
  constructor
  · cases k with
    | eq =>
      have h2 : (Except.ok (TranslationUnit.comparison_command
          ("EQ" ++ natToString (tu₁.eq_label_count + 1)) "JEQ",
          { tu₁ with eq_label_count := tu₁.eq_label_count + 1 }) :
            Except VMErr (String × TranslationUnit)) = .ok (asm, tu₂) := ha
      have e := congrArg Prod.fst (Except.ok.inj h2)
      simp only at e
      have hcnt : tu₁.eq_label_count = countArith "eq" (ops.take i) := by
        have hh := hstate.1
        simp only at hh
        rw [show (TranslationUnit.init none).eq_label_count = 0 from rfl] at hh
        omega
      rw [hasm, ← e]
      simp only [CmpKind.cmd, CmpKind.str, CmpKind.jump]
      rw [hcnt]
    | gt =>
      have h2 : (Except.ok (TranslationUnit.comparison_command
          ("GT" ++ natToString (tu₁.gt_label_count + 1)) "JGT",
          { tu₁ with gt_label_count := tu₁.gt_label_count + 1 }) :
            Except VMErr (String × TranslationUnit)) = .ok (asm, tu₂) := ha
      have e := congrArg Prod.fst (Except.ok.inj h2)
      simp only at e
      have hcnt : tu₁.gt_label_count = countArith "gt" (ops.take i) := by
        have hh := hstate.2.1
        simp only at hh
        rw [show (TranslationUnit.init none).gt_label_count = 0 from rfl] at hh
        omega
      rw [hasm, ← e]
      simp only [CmpKind.cmd, CmpKind.str, CmpKind.jump]
      rw [hcnt]
    | lt =>
      have h2 : (Except.ok (TranslationUnit.comparison_command
          ("LT" ++ natToString (tu₁.lt_label_count + 1)) "JLT",
          { tu₁ with lt_label_count := tu₁.lt_label_count + 1 }) :
            Except VMErr (String × TranslationUnit)) = .ok (asm, tu₂) := ha
      have e := congrArg Prod.fst (Except.ok.inj h2)
      simp only at e
      have hcnt : tu₁.lt_label_count = countArith "lt" (ops.take i) := by
        have hh := hstate.2.2.1
        simp only at hh
        rw [show (TranslationUnit.init none).lt_label_count = 0 from rfl] at hh
        omega
      rw [hasm, ← e]
      simp only [CmpKind.cmd, CmpKind.str, CmpKind.jump]
      rw [hcnt]
  · cases k with
    | eq =>
      simp only [CmpKind.cmd, CmpKind.str, CmpKind.jump]
      exact labelDefs_comparison (no_newline_str_nat (by decide) _) (by decide)
    | gt =>
      simp only [CmpKind.cmd, CmpKind.str, CmpKind.jump]
      exact labelDefs_comparison (no_newline_str_nat (by decide) _) (by decide)
    | lt =>
      simp only [CmpKind.cmd, CmpKind.str, CmpKind.jump]
      exact labelDefs_comparison (no_newline_str_nat (by decide) _) (by decide)

/-- C7 witness: in the run `eq, lt, eq` the operation at index 2 is the
second `eq` and its fragment is the comparison block labelled `EQ2`. -/
theorem C7_witness :
    runOps [TUOp.arith "eq", TUOp.arith "lt", TUOp.arith "eq"]
        (TranslationUnit.init none) =
      .ok ([TranslationUnit.comparison_command ("EQ" ++ natToString 1) "JEQ",
            TranslationUnit.comparison_command ("LT" ++ natToString 1) "JLT",
            TranslationUnit.comparison_command ("EQ" ++ natToString 2) "JEQ"],
        { TranslationUnit.init none with
          eq_label_count := 2, lt_label_count := 1 }) ∧
    [TranslationUnit.comparison_command ("EQ" ++ natToString 1) "JEQ",
     TranslationUnit.comparison_command ("LT" ++ natToString 1) "JLT",
     TranslationUnit.comparison_command ("EQ" ++ natToString 2) "JEQ"][2]? =
      some (TranslationUnit.comparison_command
        (CmpKind.eq.str ++ natToString (countArith CmpKind.eq.cmd
          ([TUOp.arith "eq", TUOp.arith "lt", TUOp.arith "eq"].take 2) + 1))
        CmpKind.eq.jump) :=
  ⟨by decide,
   (C7_comparison_labels [TUOp.arith "eq", TUOp.arith "lt", TUOp.arith "eq"]
     [TranslationUnit.comparison_command ("EQ" ++ natToString 1) "JEQ",
      TranslationUnit.comparison_command ("LT" ++ natToString 1) "JLT",
      TranslationUnit.comparison_command ("EQ" ++ natToString 2) "JEQ"]
     { TranslationUnit.init none with eq_label_count := 2, lt_label_count := 1 }
     (by decide) 2 CmpKind.eq (by decide)).1⟩

/-! # Claims C3 and C10 -/

/-- C3 (corrected): every input containing a (non-comment) `pop constant`
command fails to translate — but through the pipeline the failure is the
parser's `UnrecognizedMemorySegment` error, raised by `__check_pop_command`
because `constant` is not a poppable segment, not the translator's
`CannotPopToConstant`.  The `CannotPopToConstant` error exists but is
raised only when `pop_command` is invoked directly with segment
`constant` (first conjunct); no successful run ever contains a
`pop constant` line (second conjunct). -/
theorem C3_amended :
    (∀ (tu : TranslationUnit) (offset : Int),
      tu.pop_command "constant" offset = .error (.valueError .cannotPopToConstant)) ∧
    (∀ (p : HackParser) (r : List String × HackParser), p.run = .ok r →
      ∀ c ∈ p.source_commands,
        HackParser.is_comment_or_empty_line c = false → isPopConstant c = false) :=
  ⟨fun _ _ => rfl, fun _ _ h => run_ok_no_popConstant h⟩

/-- C3 counterexample: translating a file whose only command is
`pop constant 0` fails with the parser's unrecognised-memory-segment
error, not with `CannotPopToConstant`. -/
theorem C3_counterexample :
    ((HackParser.init (TranslationUnit.init none)).set_new_file
        ⟨"Demo", ["pop constant 0"]⟩).run =
      .error (.parserError "Unrecognised memory segment \x27constant\x27\n"
        (.str "pop constant 0") 1 "Demo") := by
  decide

/-- C3 witness: direct `pop_command` on `constant` yields
`CannotPopToConstant`, and a concrete successful run is `pop constant`-free. -/
theorem C3_witness :
    (TranslationUnit.init none).pop_command "constant" 0 =
      .error (.valueError .cannotPopToConstant) ∧
    isPopConstant "push constant 1" = false :=
  ⟨C3_amended.1 (TranslationUnit.init none) 0,
   C3_amended.2
     ((HackParser.init (TranslationUnit.init none)).set_new_file
       ⟨"Demo", ["push constant 1"]⟩)
     (["// --- push constant 1 ---\n@1\nD=A\n@SP\nA=M\nM=D\n@SP\nM=M+1\n"],
      { translator := { staticPrefix := some "Demo", filename := some "Demo" },
        file_set := false, line_no := 1, source_commands := ["push constant 1"] })
     (by decide) "push constant 1" (by decide) (by decide)⟩

/-- C10 (corrected): calling `run` with no file pending raises the
`"No source commands provided"` `ParserError` whenever the translator has
a filename from an earlier file (first conjunct), and every completed
`run` clears `file_set`, so a second `run` without `set_new_file` hits
that error path (second conjunct).  The correction: on a fresh parser
whose translator never had a filename, building that error reads
`self.translator.filename` and raises `AttributeError` instead, so "raises
a ParserError" does not hold universally. -/
theorem C10_amended :
    (∀ (p : HackParser) (fn : String), p.file_set = false →
      p.translator.filename = some fn →
      p.run = .error (.parserError "No source commands provided" (.bool false) 0 fn)) ∧
    (∀ (p : HackParser) (r : List String × HackParser), p.run = .ok r →
      r.2.file_set = false) :=
  ⟨fun _ _ h1 h2 => run_not_set h1 h2, fun _ _ h => run_ok_file_set h⟩

/-- C10 counterexample: a freshly constructed parser (as `main.py` builds
it: `HackParser(TranslationUnit())`) has no file pending, yet `run` raises
`AttributeError` (the translator has no `filename` attribute), not a
`ParserError`. -/
theorem C10_counterexample :
    (HackParser.init (TranslationUnit.init none)).file_set = false ∧
    (HackParser.init (TranslationUnit.init none)).run =
      .error (.attributeError "filename") := by
  constructor
  · rfl
  · decide

/-- C10 witness: after a completed run of an empty `Demo` file, `file_set`
is cleared and a second `run` raises the `ParserError`. -/
theorem C10_witness :
    ({ translator := { staticPrefix := some "Demo", filename := some "Demo" },
       file_set := false } : HackParser).run =
      .error (.parserError "No source commands provided" (.bool false) 0 "Demo") ∧
    ({ translator := { staticPrefix := some "Demo", filename := some "Demo" },
       file_set := false } : HackParser).file_set = false :=
  ⟨C10_amended.1 _ "Demo" rfl rfl,
   C10_amended.2
     ((HackParser.init (TranslationUnit.init none)).set_new_file ⟨"Demo", []⟩)
     ([], { translator := { staticPrefix := some "Demo", filename := some "Demo" },
            file_set := false })
     (by decide)⟩

end VMTr
